import Mathlib

/-! Shallow embedding of `MergeTreeDataPartWide` (wide-format data part of the
MergeTree storage engine): mark-file decoding into the index granularity table,
checksum-based consistency checking, per-column and per-part size accounting.
Translated from `MergeTreeDataPartWide.cpp`.  External collaborators (storage,
hash function, decompressing reader, substream enumeration) are modelled as
explicit data. -/

/-! ### Definitions -/

/-- Error taxonomy of the translated functions.  Each constructor records the
format arguments of the corresponding `throw Exception(...)` site. -/
inductive PartError where
  | noMarksFile (path : String)
  | noColumnsInPart (part_name : String)
  | noFileChecksum (file_name : String) (column_name : String) (part_path : String)
  | emptyMarksFile (part_path : String) (file_path : String)
  | marksDifferentSizes (part_path : String)
  | rowsCountMismatch (column_name : String) (rows_in_column : Nat)
      (part_name : String) (rows_count : Nat)
  | cannotReadAllData
deriving DecidableEq

/-- The `ErrorCodes` used by the translated functions. -/
inductive ErrorCode where
  | NO_FILE_IN_DATA_PART
  | BAD_SIZE_OF_FILE_IN_DATA_PART
  | LOGICAL_ERROR
  | CANNOT_READ_ALL_DATA
deriving DecidableEq

/-- The `ErrorCodes` constant passed to each `throw Exception(...)` site. -/
def PartError.code : PartError → ErrorCode
  | .noMarksFile _ => .NO_FILE_IN_DATA_PART
  | .noColumnsInPart _ => .NO_FILE_IN_DATA_PART
  | .noFileChecksum _ _ _ => .NO_FILE_IN_DATA_PART
  | .emptyMarksFile _ _ => .BAD_SIZE_OF_FILE_IN_DATA_PART
  | .marksDifferentSizes _ => .BAD_SIZE_OF_FILE_IN_DATA_PART
  | .rowsCountMismatch _ _ _ _ => .LOGICAL_ERROR
  | .cannotReadAllData => .CANNOT_READ_ALL_DATA

/-- `DATA_FILE_EXTENSION` from the source. -/
def DATA_FILE_EXTENSION : String := ".bin"

/-- One entry of the checksum index: `MergeTreeDataPartChecksums::Checksum`
restricted to the fields this translation unit reads. -/
structure ChecksumEntry where
  file_size : Nat
  uncompressed_size : Nat
deriving DecidableEq

/-- The checksum index (`checksums` member of the part): a file-name-keyed map,
modelled as an association list with unique keys, together with the
deterministic 128-bit string hash used for file-name resolution (the global
`sipHash128String`, an external collaborator kept abstract). -/
structure Checksums where
  files : List (String × ChecksumEntry)
  hashName : String → String

/-- Modelled from the spec: `MergeTreeDataPartChecksums::getFileNameOrHash` is
declared outside this translation unit.  Section 4.2 of the spec: when the
checksum index registers the literal stream-derived name, resolve to it;
otherwise resolve to the deterministic 128-bit hash of the name. -/
def Checksums.getFileNameOrHash (c : Checksums) (name : String) : String :=
  if (c.files.lookup (name ++ DATA_FILE_EXTENSION)).isSome then name else c.hashName name

/-- `MarkType`: the mark-format descriptor of the part. -/
structure MarkType where
  adaptive : Bool
  compressed : Bool

/-- Modelled from the spec: `MarkType::getFileExtension` is declared outside
this translation unit.  Section 6 of the spec: the mark-file extension is
determined by the mark-format descriptor stored at the part level. -/
def MarkType.getFileExtension (mt : MarkType) : String :=
  (if mt.compressed then ".cmrk" else ".mrk") ++ (if mt.adaptive then "2" else "")

/-- `MergeTreeIndexGranularityInfo`, restricted to the fields this translation
unit reads. -/
structure MergeTreeIndexGranularityInfo where
  mark_type : MarkType
  fixed_index_granularity : Nat

/-- `getMarkSizeInBytes`: one on-disk mark record holds the 8-byte offset in
the compressed file, the 8-byte offset in the decompressed block, and, only in
the adaptive format, an 8-byte row-granularity count (spec section 4.3 and 6:
16 bytes non-adaptive, 24 bytes adaptive). -/
def MergeTreeIndexGranularityInfo.getMarkSizeInBytes
    (info : MergeTreeIndexGranularityInfo) : Nat :=
  if info.mark_type.adaptive then 24 else 16

/-- `getMarksFilePath`: the mark file of a stream is the stream file name plus
the mark-file extension of the part. -/
def MergeTreeIndexGranularityInfo.getMarksFilePath
    (info : MergeTreeIndexGranularityInfo) (column_file_name : String) : String :=
  column_file_name ++ info.mark_type.getFileExtension

/-- The storage location collaborator (`IDataPartStorage`), modelled as a
finite map from path to raw file bytes, plus the generic decompressing reader
collaborator (`CompressedReadBufferFromFile`, spec section 6) kept abstract as
a function on byte streams. -/
structure DataPartStorage where
  full_path : String
  files : List (String × List Nat)
  decompress : List Nat → List Nat

def DataPartStorage.fileExists (s : DataPartStorage) (p : String) : Bool :=
  (s.files.lookup p).isSome

def DataPartStorage.readFile (s : DataPartStorage) (p : String) : Option (List Nat) :=
  s.files.lookup p

def DataPartStorage.getFileSize (s : DataPartStorage) (p : String) : Nat :=
  ((s.files.lookup p).getD []).length

/-- Little-endian decoding of a byte list (`readIntBinary` on UInt64 reads 8
little-endian bytes). -/
def leDecodeList : List Nat → Nat
  | [] => 0
  | b :: bs => b + 256 * leDecodeList bs

/-- The streaming loop of `loadIndexGranularityImpl` in the adaptive case:
while not at end of stream, read the two 8-byte offsets and the 8-byte
granularity and append the granularity to the table.  A truncated trailing
record makes `readBinary` fail (`CANNOT_READ_ALL_DATA`). -/
def decodeMarksAdaptive : List Nat → Except PartError (List Nat)
  | [] => .ok []
  | _ :: _ :: _ :: _ :: _ :: _ :: _ :: _ :: _ :: _ :: _ :: _ :: _ :: _ :: _ :: _ ::
      b16 :: b17 :: b18 :: b19 :: b20 :: b21 :: b22 :: b23 :: rest =>
    match decodeMarksAdaptive rest with
    | .error e => .error e
    | .ok gs => .ok (leDecodeList [b16, b17, b18, b19, b20, b21, b22, b23] :: gs)
  | _ => .error .cannotReadAllData

/-- The streaming loop of `loadIndexGranularityImpl` in the non-adaptive case:
while not at end of stream, read the two 8-byte offsets and count the record. -/
def decodeMarksCount : List Nat → Except PartError Nat
  | [] => .ok 0
  | _ :: _ :: _ :: _ :: _ :: _ :: _ :: _ :: _ :: _ :: _ :: _ :: _ :: _ :: _ :: _ :: rest =>
    match decodeMarksCount rest with
    | .error e => .error e
    | .ok n => .ok (n + 1)
  | _ => .error .cannotReadAllData

/-- Modelled from the spec: `changeGranularityIfRequired` is declared outside
this translation unit.  Section 3 of the spec treats the mark-format descriptor
as a fixed attribute of the part, so the adjustment step is the identity on the
already-final descriptor. -/
def MergeTreeIndexGranularityInfo.changeGranularityIfRequired
    (info : MergeTreeIndexGranularityInfo) (_storage : DataPartStorage) :
    MergeTreeIndexGranularityInfo :=
  info

/-- `MergeTreeDataPartWide::loadIndexGranularityImpl`, returning the decoded
index granularity table (the sequence of per-mark row counts). -/
def loadIndexGranularityImpl (info0 : MergeTreeIndexGranularityInfo)
    (storage : DataPartStorage) (any_column_file_name : String) :
    Except PartError (List Nat) :=
  let info := info0.changeGranularityIfRequired storage
  let marks_file_path := info.getMarksFilePath any_column_file_name
  match storage.readFile marks_file_path with
  | none => .error (.noMarksFile (storage.full_path ++ "/" ++ marks_file_path))
  | some raw =>
    if !info.mark_type.adaptive && !info.mark_type.compressed then
      let marks_count := raw.length / info.getMarkSizeInBytes
      .ok (List.replicate marks_count info.fixed_index_granularity)
    else
      let content := if info.mark_type.compressed then storage.decompress raw else raw
      if info.mark_type.adaptive then
        decodeMarksAdaptive content
      else
        match decodeMarksCount content with
        | .error e => .error e
        | .ok marks_count => .ok (List.replicate marks_count info.fixed_index_granularity)

/-- `ColumnSize` (from `IMergeTreeDataPart.h`): the three byte totals this
translation unit accumulates. -/
structure ColumnSize where
  marks : Nat := 0
  data_compressed : Nat := 0
  data_uncompressed : Nat := 0
deriving DecidableEq

/-- `ColumnSize::add`. -/
def ColumnSize.add (a b : ColumnSize) : ColumnSize :=
  { marks := a.marks + b.marks
    data_compressed := a.data_compressed + b.data_compressed
    data_uncompressed := a.data_uncompressed + b.data_uncompressed }

/-- A column of the part (`NameAndTypePair`), together with the outcome of the
external collaborators the source consults on it: `streams` is the ordered list
of full stream file names produced by
`getSerialization(name)->enumerateStreams` composed with
`ISerialization::getFileNameForStream` (spec section 4.1), and the remaining
fields record the type and serialization predicates read by
`calculateEachColumnSizes`. -/
structure NameAndTypePair where
  name : String
  streams : List String
  isValueRepresentedByNumber : Bool
  haveSubtypes : Bool
  serializationIsDefaultKind : Bool
  sizeOfValueInMemory : Nat

/-- The part state read by the translated member functions of
`MergeTreeDataPartWide`. -/
structure MergeTreeDataPartWide where
  name : String
  columns : List NameAndTypePair
  checksums : Checksums
  rows_count : Nat
  index_granularity_info : MergeTreeIndexGranularityInfo
  storage : DataPartStorage

/-- `getMarksFileExtension()`. -/
def MergeTreeDataPartWide.getMarksFileExtension (part : MergeTreeDataPartWide) : String :=
  part.index_granularity_info.mark_type.getFileExtension

/-- The bytes the checksum index attributes to one resolved stream name: the
`.bin` entry contributes its compressed and uncompressed sizes, the mark-file
entry contributes its file size (the two lookups in the body of
`getColumnSizeImpl`). -/
def streamSize (part : MergeTreeDataPartWide) (stream_name : String) : ColumnSize :=
  let bin_checksum := part.checksums.files.lookup (stream_name ++ DATA_FILE_EXTENSION)
  let mrk_checksum := part.checksums.files.lookup (stream_name ++ part.getMarksFileExtension)
  { marks := (mrk_checksum.map (·.file_size)).getD 0
    data_compressed := (bin_checksum.map (·.file_size)).getD 0
    data_uncompressed := (bin_checksum.map (·.uncompressed_size)).getD 0 }

/-- One iteration of the `enumerateStreams` callback in `getColumnSizeImpl`:
resolve the stream name; when a deduplication set is given, skip the stream if
its resolved name was already counted and record it otherwise; accumulate the
sizes of the not-skipped stream. -/
def streamSizeStep (part : MergeTreeDataPartWide)
    (acc : ColumnSize × Option (List String)) (full_stream_name : String) :
    ColumnSize × Option (List String) :=
  let stream_name := part.checksums.getFileNameOrHash full_stream_name
  match acc.2 with
  | some processed =>
    if stream_name ∈ processed then acc
    else ((acc.1).add (streamSize part stream_name), some (stream_name :: processed))
  | none => ((acc.1).add (streamSize part stream_name), none)

/-- `MergeTreeDataPartWide::getColumnSizeImpl`.  The C++ mutates an optional
pointer-passed set of processed substreams; the model threads it explicitly
and returns the updated set next to the size. -/
def getColumnSizeImpl (part : MergeTreeDataPartWide) (column : NameAndTypePair)
    (processed_substreams : Option (List String)) :
    ColumnSize × Option (List String) :=
  if part.checksums.files.isEmpty then ({}, processed_substreams)
  else column.streams.foldl (streamSizeStep part) ({}, processed_substreams)

/-- Assignment into the name-keyed map `each_columns_size` (replace the entry
of the key when present, append otherwise). -/
def assocSet (m : List (String × ColumnSize)) (k : String) (v : ColumnSize) :
    List (String × ColumnSize) :=
  if m.any (fun kv => kv.1 == k) then
    m.map (fun kv => if kv.1 == k then (k, v) else kv)
  else m ++ [(k, v)]

/-- The per-column loop of `MergeTreeDataPartWide::calculateEachColumnSizes`,
threading the map of per-column sizes, the running total and the deduplication
set; the debug-build cross-check on trivial types raises `LOGICAL_ERROR` when
the row count derived from the uncompressed size disagrees with the part row
count. -/
def calculateEachColumnSizesGo (part : MergeTreeDataPartWide) :
    List NameAndTypePair → List (String × ColumnSize) → ColumnSize → List String →
    Except PartError (List (String × ColumnSize) × ColumnSize)
  | [], each_columns_size, total_size, _ => .ok (each_columns_size, total_size)
  | column :: rest, each_columns_size, total_size, processed_substreams =>
    let r := getColumnSizeImpl part column (some processed_substreams)
    let size := r.1
    let processed := (r.2).getD processed_substreams
    let each := assocSet each_columns_size column.name size
    let total := total_size.add size
    if part.rows_count != 0 && column.isValueRepresentedByNumber
        && !column.haveSubtypes && column.serializationIsDefaultKind then
      let rows_in_column := size.data_uncompressed / column.sizeOfValueInMemory
      if rows_in_column != part.rows_count then
        .error (.rowsCountMismatch column.name rows_in_column part.name part.rows_count)
      else calculateEachColumnSizesGo part rest each total processed
    else calculateEachColumnSizesGo part rest each total processed

/-- `MergeTreeDataPartWide::calculateEachColumnSizes`: the map of per-column
sizes and the part-level total, or the raised error. -/
def calculateEachColumnSizes (part : MergeTreeDataPartWide) :
    Except PartError (List (String × ColumnSize) × ColumnSize) :=
  calculateEachColumnSizesGo part part.columns [] {} []

/-- The `check_stream_exists` lambda of `MergeTreeDataPartWide::hasColumnFiles`:
both the data-file entry and the mark-file entry of the stream must be present
in the checksum index. -/
def check_stream_exists (part : MergeTreeDataPartWide) (stream_name : String) : Bool :=
  (part.checksums.files.lookup (stream_name ++ DATA_FILE_EXTENSION)).isSome
    && (part.checksums.files.lookup (stream_name ++ part.getMarksFileExtension)).isSome

/-- `MergeTreeDataPartWide::hasColumnFiles`: `res` starts `true` and is cleared
by any enumerated stream that fails `check_stream_exists`. -/
def hasColumnFiles (part : MergeTreeDataPartWide) (column : NameAndTypePair) : Bool :=
  column.streams.foldl
    (fun res file_name => if check_stream_exists part file_name then res else false) true

/-- `MergeTreeDataPartWide::getFileNameForColumn`: the resolved name of the
first enumerated stream of the column (empty when the column has no streams). -/
def getFileNameForColumn (part : MergeTreeDataPartWide) (column : NameAndTypePair) : String :=
  column.streams.foldl
    (fun filename full_stream_name =>
      if filename.isEmpty then part.checksums.getFileNameOrHash full_stream_name
      else filename) ""

/-- `MergeTreeDataPartWide::loadIndexGranularity`. -/
def loadIndexGranularity (part : MergeTreeDataPartWide) : Except PartError (List Nat) :=
  match part.columns with
  | [] => .error (.noColumnsInPart part.name)
  | front :: _ =>
    loadIndexGranularityImpl part.index_granularity_info part.storage
      (getFileNameForColumn part front)

/-- The `require_part_metadata` branch of `checkConsistency`, inner loop over
the enumerated streams of one column: the mark-file checksum entry is checked
first, then the data-file entry; the first missing entry raises
`NO_FILE_IN_DATA_PART` naming the expected file, the column and the part path. -/
def checkColumnStreams (part : MergeTreeDataPartWide) (ext : String)
    (column_name : String) : List String → Except PartError Unit
  | [] => .ok ()
  | full_stream_name :: rest =>
    let stream_name := part.checksums.getFileNameOrHash full_stream_name
    let mrk_file_name := stream_name ++ ext
    let bin_file_name := stream_name ++ DATA_FILE_EXTENSION
    if !(part.checksums.files.lookup mrk_file_name).isSome then
      .error (.noFileChecksum mrk_file_name column_name part.storage.full_path)
    else if !(part.checksums.files.lookup bin_file_name).isSome then
      .error (.noFileChecksum bin_file_name column_name part.storage.full_path)
    else checkColumnStreams part ext column_name rest

/-- The `require_part_metadata` branch of `checkConsistency`, outer loop over
the columns. -/
def checkColumnsChecksums (part : MergeTreeDataPartWide) (ext : String) :
    List NameAndTypePair → Except PartError Unit
  | [] => .ok ()
  | column :: rest =>
    match checkColumnStreams part ext column.name column.streams with
    | .error e => .error e
    | .ok () => checkColumnsChecksums part ext rest

/-- The resolved on-storage mark-file path of one enumerated stream: the
literal name, or its hash-derived fallback when the literal name is absent. -/
def resolvedMarkPath (part : MergeTreeDataPartWide) (ext s : String) : String :=
  let file_path0 := s ++ ext
  if !part.storage.fileExists file_path0 then part.checksums.hashName file_path0 ++ ext
  else file_path0

/-- The empty-checksums branch of `checkConsistency`: for every enumerated
stream, probe the literal mark-file name and fall back to its hashed name; a
missing file is tolerated, an existing empty file raises, and an existing file
whose size differs from the first observed mark-file size raises.  The
accumulator is the `std::optional marks_size` of the source. -/
def checkMarkSizes (part : MergeTreeDataPartWide) (ext : String) :
    Option Nat → List String → Except PartError Unit
  | _, [] => .ok ()
  | marks_size, full_stream_name :: rest =>
    let file_path := resolvedMarkPath part ext full_stream_name
    if part.storage.fileExists file_path then
      let file_size := part.storage.getFileSize file_path
      if file_size = 0 then
        .error (.emptyMarksFile part.storage.full_path
          (part.storage.full_path ++ "/" ++ file_path))
      else
        match marks_size with
        | none => checkMarkSizes part ext (some file_size) rest
        | some m =>
          if file_size ≠ m then .error (.marksDifferentSizes part.storage.full_path)
          else checkMarkSizes part ext (some m) rest
    else checkMarkSizes part ext marks_size rest

/-- The ordered concatenation of the enumerated streams of a column list. -/
def streamsOfColumns : List NameAndTypePair → List String
  | [] => []
  | column :: rest => column.streams ++ streamsOfColumns rest

/-- `MergeTreeDataPartWide::checkConsistency` (the wide-part-specific part; the
`checkConsistencyBase` call validates part-level metadata outside this
translation unit and is not modelled). -/
def checkConsistency (part : MergeTreeDataPartWide) (require_part_metadata : Bool) :
    Except PartError Unit :=
  let marks_file_extension := part.getMarksFileExtension
  if !part.checksums.files.isEmpty then
    if require_part_metadata then
      checkColumnsChecksums part marks_file_extension part.columns
    else .ok ()
  else
    checkMarkSizes part marks_file_extension none (streamsOfColumns part.columns)

/-- Ordered concatenation of a list of byte lists. -/
def flattenL : List (List Nat) → List Nat
  | [] => []
  | l :: ls => l ++ flattenL ls

/-- A non-adaptive, uncompressed mark format with fixed granularity 8192. -/
def c1WitInfo : MergeTreeIndexGranularityInfo := ⟨⟨false, false⟩, 8192⟩

/-- A storage holding one 48-byte (three-record) non-adaptive mark file. -/
def c1WitStorage : DataPartStorage := ⟨"p", [("c.mrk", List.replicate 48 0)], fun l => l⟩

/-- One adaptive 24-byte mark record with zero offsets and granularity `g`
(granularities up to 255 need one little-endian byte). -/
def c2Rec (g : Nat) : List Nat := List.replicate 16 0 ++ [g, 0, 0, 0, 0, 0, 0, 0]

/-- Three adaptive records with granularities 100, 250 and 17. -/
def c2Records : List (List Nat) := [c2Rec 100, c2Rec 250, c2Rec 17]

/-- An adaptive, uncompressed mark format. -/
def c2WitInfo : MergeTreeIndexGranularityInfo := ⟨⟨true, false⟩, 8192⟩

/-- A storage holding the three-record adaptive mark file. -/
def c2WitStorage : DataPartStorage := ⟨"p", [("c.mrk2", flattenL c2Records)], fun l => l⟩

/-- A one-column part whose storage holds no files at all. -/
def c8WitPart : MergeTreeDataPartWide :=
  { name := "p0"
    columns := [⟨"a", ["a"], false, false, false, 0⟩]
    checksums := ⟨[], fun s => s⟩
    rows_count := 0
    index_granularity_info := ⟨⟨false, false⟩, 8192⟩
    storage := ⟨"p", [], fun l => l⟩ }

/-- Both checksum entries (mark file and data file) of one enumerated stream,
under the resolved stream name. -/
def streamHasBoth (part : MergeTreeDataPartWide) (ext : String) (s : String) : Bool :=
  let stream_name := part.checksums.getFileNameOrHash s
  (part.checksums.files.lookup (stream_name ++ ext)).isSome
    && (part.checksums.files.lookup (stream_name ++ DATA_FILE_EXTENSION)).isSome

/-- Every enumerated stream of every column has both checksum entries. -/
def allStreamsHaveBoth (part : MergeTreeDataPartWide) : Bool :=
  part.columns.all fun c =>
    c.streams.all (streamHasBoth part part.getMarksFileExtension)

/-- A part whose only column has one stream with a data-file checksum entry
but no mark-file checksum entry. -/
def c4WitPart : MergeTreeDataPartWide :=
  { name := "p0"
    columns := [⟨"a", ["a"], false, false, false, 0⟩]
    checksums := ⟨[("a.bin", ⟨10, 20⟩)], fun s => s⟩
    rows_count := 0
    index_granularity_info := ⟨⟨false, false⟩, 8192⟩
    storage := ⟨"p", [], fun l => l⟩ }

/-- The sizes of the mark files that exist on storage, in stream order. -/
def existingMarkSizes (part : MergeTreeDataPartWide) (ext : String)
    (ss : List String) : List Nat :=
  ss.filterMap fun s =>
    let p := resolvedMarkPath part ext s
    if part.storage.fileExists p then some (part.storage.getFileSize p) else none

/-- All sizes in the list are non-zero and equal to the first one. -/
def allEqualNonzero : List Nat → Bool
  | [] => true
  | x :: xs => (x != 0) && xs.all fun y => (y != 0) && (y == x)

/-- A part with an empty checksum index and two existing mark files of sizes
48 and 32 bytes. -/
def c5WitPart : MergeTreeDataPartWide :=
  { name := "p0"
    columns := [⟨"a", ["a"], false, false, false, 0⟩, ⟨"b", ["b"], false, false, false, 0⟩]
    checksums := ⟨[], fun s => s⟩
    rows_count := 0
    index_granularity_info := ⟨⟨false, false⟩, 8192⟩
    storage := ⟨"p", [("a.mrk", List.replicate 48 0), ("b.mrk", List.replicate 32 0)],
      fun l => l⟩ }

/-- Componentwise order on the three byte totals. -/
def ColumnSize.le (a b : ColumnSize) : Prop :=
  a.marks ≤ b.marks ∧ a.data_compressed ≤ b.data_compressed ∧
    a.data_uncompressed ≤ b.data_uncompressed

/-- Componentwise sum of a list of sizes. -/
def sumSizes (l : List ColumnSize) : ColumnSize := l.foldr ColumnSize.add {}

/-- The sublist of first occurrences that are not already in `seen` (the
stream names a deduplicating pass starting from `seen` actually counts). -/
def dedupNew (seen : List String) : List String → List String
  | [] => []
  | x :: xs => if x ∈ seen then dedupNew seen xs else x :: dedupNew (x :: seen) xs

/-- The deduplication set after a pass over the list starting from `seen`. -/
def seenAfter (seen : List String) : List String → List String
  | [] => seen
  | x :: xs => if x ∈ seen then seenAfter seen xs else seenAfter (x :: seen) xs

/-- The resolved stream names of all columns of the part, in pass order. -/
def allResolvedStreams (part : MergeTreeDataPartWide) : List String :=
  (streamsOfColumns part.columns).map (part.checksums.getFileNameOrHash)

/-- A part with two columns sharing their single physical stream. -/
def c3CexPart : MergeTreeDataPartWide :=
  { name := "p0"
    columns := [⟨"A", ["s"], false, false, false, 0⟩, ⟨"B", ["s"], false, false, false, 0⟩]
    checksums := ⟨[("s.bin", ⟨10, 10⟩)], fun s => s⟩
    rows_count := 0
    index_granularity_info := ⟨⟨false, false⟩, 8192⟩
    storage := ⟨"p", [], fun l => l⟩ }

/-- A part with 1000 rows and one fixed-width (8-byte), default-serialized
column whose uncompressed byte total is 7992 = 999 × 8. -/
def c7WitPart : MergeTreeDataPartWide :=
  { name := "p0"
    columns := [⟨"A", ["A"], true, false, true, 8⟩]
    checksums := ⟨[("A.bin", ⟨7992, 7992⟩)], fun s => s⟩
    rows_count := 1000
    index_granularity_info := ⟨⟨false, false⟩, 8192⟩
    storage := ⟨"p", [], fun l => l⟩ }

/-- A part with zero rows and one fixed-width (8-byte), default-serialized
column whose uncompressed byte total is 8, so the derived row count is 1. -/
def c7CexPart : MergeTreeDataPartWide :=
  { name := "p0"
    columns := [⟨"A", ["A"], true, false, true, 8⟩]
    checksums := ⟨[("A.bin", ⟨8, 8⟩)], fun s => s⟩
    rows_count := 0
    index_granularity_info := ⟨⟨false, false⟩, 8192⟩
    storage := ⟨"p", [], fun l => l⟩ }

/-- A part with two columns over distinct streams with checksum entries. -/
def c9WitPart : MergeTreeDataPartWide :=
  { name := "p0"
    columns := [⟨"A", ["a"], false, false, false, 0⟩, ⟨"B", ["b"], false, false, false, 0⟩]
    checksums := ⟨[("a.bin", ⟨5, 6⟩), ("b.bin", ⟨7, 8⟩), ("a.mrk", ⟨3, 3⟩)], fun s => s⟩
    rows_count := 0
    index_granularity_info := ⟨⟨false, false⟩, 8192⟩
    storage := ⟨"p", [], fun l => l⟩ }

/-- A part with zero rows and a column whose checksum entry implies a
non-zero derived row count. -/
def c10WitPart : MergeTreeDataPartWide :=
  { name := "p0"
    columns := [⟨"A", ["A"], true, false, true, 8⟩]
    checksums := ⟨[("A.bin", ⟨16, 16⟩)], fun s => s⟩
    rows_count := 0
    index_granularity_info := ⟨⟨false, false⟩, 8192⟩
    storage := ⟨"p", [], fun l => l⟩ }

/-! ### Theorems -/

/-- Splitting a list of known successor length into head and tail. -/
theorem length_succ_cons {n : Nat} : ∀ {l : List Nat}, l.length = n + 1 →
    ∃ b t, l = b :: t ∧ t.length = n := by
  intro l h
  cases l with
  | nil => simp at h
  | cons b t => exact ⟨b, t, rfl, by simpa using h⟩

/-- One complete 24-byte record at the head of the stream decodes to its
granularity field (bytes 16 to 23) followed by the decoding of the rest. -/
theorem decodeMarksAdaptive_record (r rest : List Nat) (hr : r.length = 24) :
    decodeMarksAdaptive (r ++ rest) =
      match decodeMarksAdaptive rest with
      | .error e => .error e
      | .ok gs => .ok (leDecodeList (r.drop 16) :: gs) := by
  obtain ⟨b0, r1, rfl, h1⟩ := length_succ_cons hr
  obtain ⟨b1, r2, rfl, h2⟩ := length_succ_cons h1
  obtain ⟨b2, r3, rfl, h3⟩ := length_succ_cons h2
  obtain ⟨b3, r4, rfl, h4⟩ := length_succ_cons h3
  obtain ⟨b4, r5, rfl, h5⟩ := length_succ_cons h4
  obtain ⟨b5, r6, rfl, h6⟩ := length_succ_cons h5
  obtain ⟨b6, r7, rfl, h7⟩ := length_succ_cons h6
  obtain ⟨b7, r8, rfl, h8⟩ := length_succ_cons h7
  obtain ⟨b8, r9, rfl, h9⟩ := length_succ_cons h8
  obtain ⟨b9, r10, rfl, h10⟩ := length_succ_cons h9
  obtain ⟨b10, r11, rfl, h11⟩ := length_succ_cons h10
  obtain ⟨b11, r12, rfl, h12⟩ := length_succ_cons h11
  obtain ⟨b12, r13, rfl, h13⟩ := length_succ_cons h12
  obtain ⟨b13, r14, rfl, h14⟩ := length_succ_cons h13
  obtain ⟨b14, r15, rfl, h15⟩ := length_succ_cons h14
  obtain ⟨b15, r16, rfl, h16⟩ := length_succ_cons h15
  obtain ⟨b16, r17, rfl, h17⟩ := length_succ_cons h16
  obtain ⟨b17, r18, rfl, h18⟩ := length_succ_cons h17
  obtain ⟨b18, r19, rfl, h19⟩ := length_succ_cons h18
  obtain ⟨b19, r20, rfl, h20⟩ := length_succ_cons h19
  obtain ⟨b20, r21, rfl, h21⟩ := length_succ_cons h20
  obtain ⟨b21, r22, rfl, h22⟩ := length_succ_cons h21
  obtain ⟨b22, r23, rfl, h23⟩ := length_succ_cons h22
  obtain ⟨b23, r24, rfl, h24⟩ := length_succ_cons h23
  obtain rfl : r24 = [] := List.length_eq_zero.mp h24
  rfl

/-- One complete 16-byte record at the head of the stream is counted and the
rest is decoded. -/
theorem decodeMarksCount_record (r rest : List Nat) (hr : r.length = 16) :
    decodeMarksCount (r ++ rest) =
      match decodeMarksCount rest with
      | .error e => .error e
      | .ok n => .ok (n + 1) := by
  obtain ⟨b0, r1, rfl, h1⟩ := length_succ_cons hr
  obtain ⟨b1, r2, rfl, h2⟩ := length_succ_cons h1
  obtain ⟨b2, r3, rfl, h3⟩ := length_succ_cons h2
  obtain ⟨b3, r4, rfl, h4⟩ := length_succ_cons h3
  obtain ⟨b4, r5, rfl, h5⟩ := length_succ_cons h4
  obtain ⟨b5, r6, rfl, h6⟩ := length_succ_cons h5
  obtain ⟨b6, r7, rfl, h7⟩ := length_succ_cons h6
  obtain ⟨b7, r8, rfl, h8⟩ := length_succ_cons h7
  obtain ⟨b8, r9, rfl, h9⟩ := length_succ_cons h8
  obtain ⟨b9, r10, rfl, h10⟩ := length_succ_cons h9
  obtain ⟨b10, r11, rfl, h11⟩ := length_succ_cons h10
  obtain ⟨b11, r12, rfl, h12⟩ := length_succ_cons h11
  obtain ⟨b12, r13, rfl, h13⟩ := length_succ_cons h12
  obtain ⟨b13, r14, rfl, h14⟩ := length_succ_cons h13
  obtain ⟨b14, r15, rfl, h15⟩ := length_succ_cons h14
  obtain ⟨b15, r16, rfl, h16⟩ := length_succ_cons h15
  obtain rfl : r16 = [] := List.length_eq_zero.mp h16
  rfl

/-- A stream that is a concatenation of complete 24-byte records decodes
without error to the sequence of the per-record granularity fields. -/
theorem decodeMarksAdaptive_flattenL (records : List (List Nat))
    (h : ∀ r ∈ records, r.length = 24) :
    decodeMarksAdaptive (flattenL records) =
      .ok (records.map fun r => leDecodeList (r.drop 16)) := by
  induction records with
  | nil => rfl
  | cons r rs ih =>
    rw [show flattenL (r :: rs) = r ++ flattenL rs from rfl]
    rw [decodeMarksAdaptive_record r _ (h r (by simp))]
    rw [ih (fun x hx => h x (by simp [hx]))]
    rfl

/-- A stream that is a concatenation of complete 16-byte records decodes
without error to the number of records. -/
theorem decodeMarksCount_flattenL (records : List (List Nat))
    (h : ∀ r ∈ records, r.length = 16) :
    decodeMarksCount (flattenL records) = .ok records.length := by
  induction records with
  | nil => rfl
  | cons r rs ih =>
    rw [show flattenL (r :: rs) = r ++ flattenL rs from rfl]
    rw [decodeMarksCount_record r _ (h r (by simp))]
    rw [ih (fun x hx => h x (by simp [hx]))]
    rfl

/-- Evaluation of `loadIndexGranularityImpl` once the mark file is known to be
present with content `raw`. -/
theorem loadIndexGranularityImpl_eq (info : MergeTreeIndexGranularityInfo)
    (storage : DataPartStorage) (fn : String) (raw : List Nat)
    (hraw : storage.readFile (info.getMarksFilePath fn) = some raw) :
    loadIndexGranularityImpl info storage fn =
      if !info.mark_type.adaptive && !info.mark_type.compressed then
        .ok (List.replicate (raw.length / info.getMarkSizeInBytes)
          info.fixed_index_granularity)
      else
        if info.mark_type.adaptive then
          decodeMarksAdaptive
            (if info.mark_type.compressed then storage.decompress raw else raw)
        else
          match decodeMarksCount
              (if info.mark_type.compressed then storage.decompress raw else raw) with
          | .error e => .error e
          | .ok marks_count =>
            .ok (List.replicate marks_count info.fixed_index_granularity) := by
  unfold loadIndexGranularityImpl
  simp only [MergeTreeIndexGranularityInfo.changeGranularityIfRequired, hraw]

/-- Claim C1: for every part whose mark format is non-adaptive and not
generically compressed, decoding the mark file yields a mark count equal to the
mark file size divided by the mark record size, and every entry of the
resulting index granularity table equals the configured fixed granularity. -/
theorem claim_c1_fixed_format_decode (info : MergeTreeIndexGranularityInfo)
    (storage : DataPartStorage) (fn : String) (raw : List Nat)
    (ha : info.mark_type.adaptive = false) (hc : info.mark_type.compressed = false)
    (hraw : storage.readFile (info.getMarksFilePath fn) = some raw) :
    ∃ gs, loadIndexGranularityImpl info storage fn = .ok gs ∧
      gs.length =
        storage.getFileSize (info.getMarksFilePath fn) / info.getMarkSizeInBytes ∧
      ∀ g ∈ gs, g = info.fixed_index_granularity := by
  refine ⟨List.replicate (raw.length / info.getMarkSizeInBytes) info.fixed_index_granularity,
    ?_, ?_, ?_⟩
  · rw [loadIndexGranularityImpl_eq info storage fn raw hraw]
    simp [ha, hc]
  · have hsz : storage.getFileSize (info.getMarksFilePath fn) = raw.length := by
      have hlk : storage.files.lookup (info.getMarksFilePath fn) = some raw := hraw
      simp [DataPartStorage.getFileSize, hlk]
    simp [hsz]
  · intro g hg
    exact List.eq_of_mem_replicate hg

/-- Claim C2: for every part whose mark format is adaptive or generically
compressed, decoding reads records sequentially until end-of-stream (through
the decompressing reader when compressed); the mark count equals the number of
records read, and the index granularity table is the sequence of per-record
8-byte granularity counts when adaptive, or the fixed granularity repeated once
per record when not adaptive. -/
theorem claim_c2_streaming_decode (info : MergeTreeIndexGranularityInfo)
    (storage : DataPartStorage) (fn : String) (raw : List Nat)
    (records : List (List Nat))
    (hsc : info.mark_type.adaptive = true ∨ info.mark_type.compressed = true)
    (hraw : storage.readFile (info.getMarksFilePath fn) = some raw)
    (hrec : ∀ r ∈ records, r.length = info.getMarkSizeInBytes)
    (hcontent : (if info.mark_type.compressed then storage.decompress raw else raw)
      = flattenL records) :
    ∃ gs, loadIndexGranularityImpl info storage fn = .ok gs ∧
      gs.length = records.length ∧
      (info.mark_type.adaptive = true →
        gs = records.map fun r => leDecodeList (r.drop 16)) ∧
      (info.mark_type.adaptive = false →
        gs = List.replicate records.length info.fixed_index_granularity) := by
  rw [loadIndexGranularityImpl_eq info storage fn raw hraw]
  cases hadp : info.mark_type.adaptive with
  | true =>
    have hrec24 : ∀ r ∈ records, r.length = 24 := by
      intro r hr
      have h := hrec r hr
      simpa [MergeTreeIndexGranularityInfo.getMarkSizeInBytes, hadp] using h
    refine ⟨records.map fun r => leDecodeList (r.drop 16), ?_, by simp, fun _ => rfl,
      fun h => absurd h (by simp)⟩
    rw [hcontent]
    simp [decodeMarksAdaptive_flattenL records hrec24]
  | false =>
    have hcmp : info.mark_type.compressed = true := by
      rcases hsc with h | h
      · rw [hadp] at h; cases h
      · exact h
    have hrec16 : ∀ r ∈ records, r.length = 16 := by
      intro r hr
      have h := hrec r hr
      simpa [MergeTreeIndexGranularityInfo.getMarkSizeInBytes, hadp] using h
    refine ⟨List.replicate records.length info.fixed_index_granularity, ?_, by simp,
      fun h => absurd h (by simp), fun _ => rfl⟩
    rw [hcontent]
    simp [hcmp, decodeMarksCount_flattenL records hrec16]

/-- Witness for claim C1 at a concrete part: a 48-byte non-adaptive mark file
decodes to 48 / 16 = 3 marks, each of granularity 8192. -/
theorem claim_c1_fixed_format_decode_witness :
    c1WitInfo.mark_type.adaptive = false ∧ c1WitInfo.mark_type.compressed = false ∧
    c1WitStorage.readFile (c1WitInfo.getMarksFilePath "c") = some (List.replicate 48 0) ∧
    ∃ gs, loadIndexGranularityImpl c1WitInfo c1WitStorage "c" = .ok gs ∧
      gs.length = c1WitStorage.getFileSize (c1WitInfo.getMarksFilePath "c")
        / c1WitInfo.getMarkSizeInBytes ∧
      ∀ g ∈ gs, g = c1WitInfo.fixed_index_granularity :=
  ⟨rfl, rfl, by decide,
    claim_c1_fixed_format_decode c1WitInfo c1WitStorage "c" (List.replicate 48 0)
      rfl rfl (by decide)⟩

/-- Witness for claim C2 at a concrete part: an adaptive mark file holding
granularities 100, 250, 17 decodes to the table [100, 250, 17]. -/
theorem claim_c2_streaming_decode_witness :
    (c2WitInfo.mark_type.adaptive = true ∨ c2WitInfo.mark_type.compressed = true) ∧
    loadIndexGranularityImpl c2WitInfo c2WitStorage "c" = .ok [100, 250, 17] ∧
    ∃ gs, loadIndexGranularityImpl c2WitInfo c2WitStorage "c" = .ok gs ∧
      gs.length = c2Records.length ∧
      (c2WitInfo.mark_type.adaptive = true →
        gs = c2Records.map fun r => leDecodeList (r.drop 16)) ∧
      (c2WitInfo.mark_type.adaptive = false →
        gs = List.replicate c2Records.length c2WitInfo.fixed_index_granularity) :=
  ⟨Or.inl rfl, by rfl,
    claim_c2_streaming_decode c2WitInfo c2WitStorage "c" (flattenL c2Records) c2Records
      (Or.inl rfl) (by decide) (by decide) rfl⟩

/-- The `res` accumulator of `hasColumnFiles` over a stream list equals the
starting value conjoined with `check_stream_exists` holding on every stream. -/
theorem hasColumnFiles_foldl (part : MergeTreeDataPartWide) (ss : List String)
    (b : Bool) :
    ss.foldl (fun res file_name =>
        if check_stream_exists part file_name then res else false) b
      = (b && ss.all (check_stream_exists part)) := by
  induction ss generalizing b with
  | nil => simp
  | cons s ss ih =>
    rw [List.foldl_cons, ih]
    cases h : check_stream_exists part s <;> simp [h]

/-- Claim C6: `hasColumnFiles` returns false if and only if at least one
enumerated stream of the column lacks either its data-file checksum entry or
its mark-file checksum entry in the checksum index; equivalently, it returns
true exactly when every enumerated stream has both entries. -/
theorem claim_c6_hasColumnFiles_iff (part : MergeTreeDataPartWide)
    (column : NameAndTypePair) :
    (hasColumnFiles part column = false ↔
      ∃ s ∈ column.streams,
        ¬((part.checksums.files.lookup (s ++ DATA_FILE_EXTENSION)).isSome = true ∧
          (part.checksums.files.lookup (s ++ part.getMarksFileExtension)).isSome = true)) ∧
    (hasColumnFiles part column = true ↔
      ∀ s ∈ column.streams,
        (part.checksums.files.lookup (s ++ DATA_FILE_EXTENSION)).isSome = true ∧
        (part.checksums.files.lookup (s ++ part.getMarksFileExtension)).isSome = true) := by
  have hall : hasColumnFiles part column
      = column.streams.all (check_stream_exists part) := by
    rw [hasColumnFiles, hasColumnFiles_foldl, Bool.true_and]
  have hcheck : ∀ s, check_stream_exists part s = true ↔
      ((part.checksums.files.lookup (s ++ DATA_FILE_EXTENSION)).isSome = true ∧
       (part.checksums.files.lookup (s ++ part.getMarksFileExtension)).isSome = true) := by
    intro s
    rw [check_stream_exists, Bool.and_eq_true]
  have htrue : hasColumnFiles part column = true ↔
      ∀ s ∈ column.streams,
        (part.checksums.files.lookup (s ++ DATA_FILE_EXTENSION)).isSome = true ∧
        (part.checksums.files.lookup (s ++ part.getMarksFileExtension)).isSome = true := by
    rw [hall, List.all_eq_true]
    constructor
    · intro h s hs
      exact (hcheck s).mp (h s hs)
    · intro h s hs
      exact (hcheck s).mpr (h s hs)
  refine ⟨?_, htrue⟩
  constructor
  · intro hf
    by_contra hne
    push_neg at hne
    have hv : hasColumnFiles part column = true := htrue.mpr hne
    rw [hf] at hv
    cases hv
  · rintro ⟨s, hs, hnb⟩
    cases hv : hasColumnFiles part column with
    | false => rfl
    | true => exact absurd (htrue.mp hv s hs) hnb

/-- Claim C8: for every part with at least one column, loading the index
granularity raises a fatal missing-file (`NO_FILE_IN_DATA_PART`) error, and no
granularity table is produced, when the required mark file of the first
column resolved stream does not exist on storage. -/
theorem claim_c8_missing_marks_file (part : MergeTreeDataPartWide)
    (front : NameAndTypePair) (rest : List NameAndTypePair)
    (hcols : part.columns = front :: rest)
    (habs : part.storage.fileExists
      (part.index_granularity_info.getMarksFilePath
        (getFileNameForColumn part front)) = false) :
    ∃ p, loadIndexGranularity part = .error (.noMarksFile p) ∧
      (PartError.noMarksFile p).code = .NO_FILE_IN_DATA_PART ∧
      ∀ gs, loadIndexGranularity part ≠ .ok gs := by
  have hnone : part.storage.readFile
      (part.index_granularity_info.getMarksFilePath
        (getFileNameForColumn part front)) = none := by
    rw [DataPartStorage.fileExists] at habs
    rw [DataPartStorage.readFile]
    cases hlk : part.storage.files.lookup
        (part.index_granularity_info.getMarksFilePath
          (getFileNameForColumn part front)) with
    | none => rfl
    | some v => rw [hlk] at habs; simp at habs
  have heval : loadIndexGranularity part
      = .error (.noMarksFile (part.storage.full_path ++ "/"
          ++ part.index_granularity_info.getMarksFilePath
              (getFileNameForColumn part front))) := by
    rw [loadIndexGranularity, hcols]
    unfold loadIndexGranularityImpl
    simp only [MergeTreeIndexGranularityInfo.changeGranularityIfRequired, hnone]
  refine ⟨_, heval, rfl, ?_⟩
  intro gs hok
  rw [heval] at hok
  cases hok

/-- Witness for claim C8 at a concrete part: the mark file of the only column
is absent, so loading the granularity fails with `NO_FILE_IN_DATA_PART`. -/
theorem claim_c8_missing_marks_file_witness :
    c8WitPart.columns = [⟨"a", ["a"], false, false, false, 0⟩] ∧
    c8WitPart.storage.fileExists
      (c8WitPart.index_granularity_info.getMarksFilePath
        (getFileNameForColumn c8WitPart ⟨"a", ["a"], false, false, false, 0⟩)) = false ∧
    ∃ p, loadIndexGranularity c8WitPart = .error (.noMarksFile p) ∧
      (PartError.noMarksFile p).code = .NO_FILE_IN_DATA_PART ∧
      ∀ gs, loadIndexGranularity c8WitPart ≠ .ok gs :=
  ⟨rfl, by decide,
    claim_c8_missing_marks_file c8WitPart ⟨"a", ["a"], false, false, false, 0⟩ []
      rfl (by decide)⟩

/-- Behaviour of the inner loop of the full-metadata check on one column:
it succeeds exactly when every stream has both entries, and otherwise fails
with a `noFileChecksum` error naming the column, the part path and a really
missing expected file of one of the streams. -/
theorem checkColumnStreams_spec (part : MergeTreeDataPartWide) (ext : String)
    (cname : String) : ∀ ss : List String,
    (checkColumnStreams part ext cname ss = .ok ()
      ↔ ss.all (streamHasBoth part ext) = true) ∧
    (ss.all (streamHasBoth part ext) = false →
      ∃ f, checkColumnStreams part ext cname ss
          = .error (.noFileChecksum f cname part.storage.full_path) ∧
        ∃ s ∈ ss,
          (f = part.checksums.getFileNameOrHash s ++ ext ∨
           f = part.checksums.getFileNameOrHash s ++ DATA_FILE_EXTENSION) ∧
          part.checksums.files.lookup f = none) := by
  intro ss
  induction ss with
  | nil => exact ⟨by simp [checkColumnStreams], by simp⟩
  | cons s rest ih =>
    have hstep : checkColumnStreams part ext cname (s :: rest)
        = (if !(part.checksums.files.lookup
              (part.checksums.getFileNameOrHash s ++ ext)).isSome then
            .error (.noFileChecksum (part.checksums.getFileNameOrHash s ++ ext)
              cname part.storage.full_path)
          else if !(part.checksums.files.lookup
              (part.checksums.getFileNameOrHash s ++ DATA_FILE_EXTENSION)).isSome then
            .error (.noFileChecksum
              (part.checksums.getFileNameOrHash s ++ DATA_FILE_EXTENSION)
              cname part.storage.full_path)
          else checkColumnStreams part ext cname rest) := rfl
    cases hm : (part.checksums.files.lookup
        (part.checksums.getFileNameOrHash s ++ ext)).isSome with
    | false =>
      have hmn : part.checksums.files.lookup
          (part.checksums.getFileNameOrHash s ++ ext) = none := by
        cases hv : part.checksums.files.lookup
            (part.checksums.getFileNameOrHash s ++ ext) with
        | none => rfl
        | some v => rw [hv] at hm; cases hm
      have hsb : streamHasBoth part ext s = false := by
        simp [streamHasBoth, hm]
      constructor
      · rw [hstep]
        simp [hm, hsb]
      · intro _
        refine ⟨part.checksums.getFileNameOrHash s ++ ext, ?_, s, by simp,
          Or.inl rfl, hmn⟩
        rw [hstep]
        simp [hm]
    | true =>
      cases hb : (part.checksums.files.lookup
          (part.checksums.getFileNameOrHash s ++ DATA_FILE_EXTENSION)).isSome with
      | false =>
        have hbn : part.checksums.files.lookup
            (part.checksums.getFileNameOrHash s ++ DATA_FILE_EXTENSION) = none := by
          cases hv : part.checksums.files.lookup
              (part.checksums.getFileNameOrHash s ++ DATA_FILE_EXTENSION) with
          | none => rfl
          | some v => rw [hv] at hb; cases hb
        have hsb : streamHasBoth part ext s = false := by
          simp [streamHasBoth, hm, hb]
        constructor
        · rw [hstep]
          simp [hm, hb, hsb]
        · intro _
          refine ⟨part.checksums.getFileNameOrHash s ++ DATA_FILE_EXTENSION, ?_,
            s, by simp, Or.inr rfl, hbn⟩
          rw [hstep]
          simp [hm, hb]
      | true =>
        have hsb : streamHasBoth part ext s = true := by
          simp [streamHasBoth, hm, hb]
        have hred : checkColumnStreams part ext cname (s :: rest)
            = checkColumnStreams part ext cname rest := by
          rw [hstep]
          simp [hm, hb]
        constructor
        · rw [hred, List.all_cons, hsb, Bool.true_and]
          exact ih.1
        · intro hall
          rw [List.all_cons, hsb, Bool.true_and] at hall
          obtain ⟨f, herr, s0, hs0, hor, hnone⟩ := ih.2 hall
          exact ⟨f, by rw [hred]; exact herr, s0, by simp [hs0], hor, hnone⟩

/-- Behaviour of the outer loop of the full-metadata check over the columns. -/
theorem checkColumnsChecksums_spec (part : MergeTreeDataPartWide) (ext : String) :
    ∀ cols : List NameAndTypePair,
    (checkColumnsChecksums part ext cols = .ok ()
      ↔ cols.all (fun c => c.streams.all (streamHasBoth part ext)) = true) ∧
    (cols.all (fun c => c.streams.all (streamHasBoth part ext)) = false →
      ∃ f c, checkColumnsChecksums part ext cols
          = .error (.noFileChecksum f c part.storage.full_path) ∧
        ∃ col ∈ cols, col.name = c ∧ ∃ s ∈ col.streams,
          (f = part.checksums.getFileNameOrHash s ++ ext ∨
           f = part.checksums.getFileNameOrHash s ++ DATA_FILE_EXTENSION) ∧
          part.checksums.files.lookup f = none) := by
  intro cols
  induction cols with
  | nil => exact ⟨by simp [checkColumnsChecksums], by simp⟩
  | cons col rest ih =>
    have hcol := checkColumnStreams_spec part ext col.name col.streams
    cases hca : col.streams.all (streamHasBoth part ext) with
    | false =>
      obtain ⟨f, herr, s0, hs0, hor, hnone⟩ := hcol.2 hca
      have hred : checkColumnsChecksums part ext (col :: rest)
          = .error (.noFileChecksum f col.name part.storage.full_path) := by
        rw [checkColumnsChecksums, herr]
      constructor
      · rw [hred]
        constructor
        · intro h; cases h
        · intro h
          rw [List.all_cons, hca] at h
          cases h
      · intro _
        exact ⟨f, col.name, hred, col, by simp, rfl, s0, hs0, hor, hnone⟩
    | true =>
      have hok : checkColumnStreams part ext col.name col.streams = .ok () :=
        hcol.1.mpr hca
      have hred : checkColumnsChecksums part ext (col :: rest)
          = checkColumnsChecksums part ext rest := by
        rw [checkColumnsChecksums, hok]
      constructor
      · rw [hred, List.all_cons, hca, Bool.true_and]
        exact ih.1
      · intro hall
        rw [List.all_cons, hca, Bool.true_and] at hall
        obtain ⟨f, c, herr, col0, hcol0, hcn, s0, hs0, hor, hnone⟩ := ih.2 hall
        exact ⟨f, c, by rw [hred]; exact herr, col0, by simp [hcol0], hcn,
          s0, hs0, hor, hnone⟩

/-- Claim C4: when the checksum index is non-empty and the consistency check is
invoked with full metadata required, it passes exactly when every enumerated
stream of every column has both its data-file and its mark-file checksum entry,
and whenever some stream lacks one of the two, it raises a missing-file
(`NO_FILE_IN_DATA_PART`) error naming the missing expected file, its column,
and the part path. -/
theorem claim_c4_full_metadata_check (part : MergeTreeDataPartWide)
    (hne : part.checksums.files ≠ []) :
    (checkConsistency part true = .ok () ↔ allStreamsHaveBoth part = true) ∧
    (allStreamsHaveBoth part = false →
      ∃ f c, checkConsistency part true
          = .error (.noFileChecksum f c part.storage.full_path) ∧
        (PartError.noFileChecksum f c part.storage.full_path).code
          = .NO_FILE_IN_DATA_PART ∧
        ∃ col ∈ part.columns, col.name = c ∧ ∃ s ∈ col.streams,
          (f = part.checksums.getFileNameOrHash s ++ part.getMarksFileExtension ∨
           f = part.checksums.getFileNameOrHash s ++ DATA_FILE_EXTENSION) ∧
          part.checksums.files.lookup f = none) := by
  have hemp : part.checksums.files.isEmpty = false := by
    cases hv : part.checksums.files with
    | nil => exact absurd hv hne
    | cons a l => rfl
  have hred : checkConsistency part true
      = checkColumnsChecksums part part.getMarksFileExtension part.columns := by
    rw [checkConsistency, hemp]
    rfl
  have hspec := checkColumnsChecksums_spec part part.getMarksFileExtension part.columns
  constructor
  · rw [hred, allStreamsHaveBoth]
    exact hspec.1
  · intro hall
    rw [allStreamsHaveBoth] at hall
    obtain ⟨f, c, herr, rest⟩ := hspec.2 hall
    exact ⟨f, c, by rw [hred]; exact herr, rfl, rest⟩

/-- Witness for claim C4 at a concrete part: the mark-file checksum entry of
the only stream is absent, so the full-metadata check raises a missing-file
error naming that file, the column and the part path. -/
theorem claim_c4_full_metadata_check_witness :
    c4WitPart.checksums.files ≠ [] ∧ allStreamsHaveBoth c4WitPart = false ∧
    ((checkConsistency c4WitPart true = .ok () ↔ allStreamsHaveBoth c4WitPart = true) ∧
      (allStreamsHaveBoth c4WitPart = false →
        ∃ f c, checkConsistency c4WitPart true
            = .error (.noFileChecksum f c c4WitPart.storage.full_path) ∧
          (PartError.noFileChecksum f c c4WitPart.storage.full_path).code
            = .NO_FILE_IN_DATA_PART ∧
          ∃ col ∈ c4WitPart.columns, col.name = c ∧ ∃ s ∈ col.streams,
            (f = c4WitPart.checksums.getFileNameOrHash s
                ++ c4WitPart.getMarksFileExtension ∨
             f = c4WitPart.checksums.getFileNameOrHash s ++ DATA_FILE_EXTENSION) ∧
            c4WitPart.checksums.files.lookup f = none)) :=
  ⟨by decide, by decide, claim_c4_full_metadata_check c4WitPart (by decide)⟩

/-- Unfolding one step of `checkMarkSizes`. -/
theorem checkMarkSizes_cons (part : MergeTreeDataPartWide) (ext : String)
    (m : Option Nat) (s : String) (rest : List String) :
    checkMarkSizes part ext m (s :: rest) =
      (if part.storage.fileExists (resolvedMarkPath part ext s) then
        if part.storage.getFileSize (resolvedMarkPath part ext s) = 0 then
          .error (.emptyMarksFile part.storage.full_path
            (part.storage.full_path ++ "/" ++ resolvedMarkPath part ext s))
        else
          match m with
          | none => checkMarkSizes part ext
              (some (part.storage.getFileSize (resolvedMarkPath part ext s))) rest
          | some x =>
            if part.storage.getFileSize (resolvedMarkPath part ext s) ≠ x then
              .error (.marksDifferentSizes part.storage.full_path)
            else checkMarkSizes part ext (some x) rest
      else checkMarkSizes part ext m rest) := rfl

/-- Unfolding one step of `existingMarkSizes`. -/
theorem existingMarkSizes_cons (part : MergeTreeDataPartWide) (ext : String)
    (s : String) (rest : List String) :
    existingMarkSizes part ext (s :: rest) =
      (if part.storage.fileExists (resolvedMarkPath part ext s) then
        part.storage.getFileSize (resolvedMarkPath part ext s)
          :: existingMarkSizes part ext rest
      else existingMarkSizes part ext rest) := by
  cases hex : part.storage.fileExists (resolvedMarkPath part ext s) <;>
    simp [existingMarkSizes, List.filterMap_cons, hex]

/-- `checkMarkSizes` never fails with anything but a
`BAD_SIZE_OF_FILE_IN_DATA_PART` error. -/
theorem checkMarkSizes_err (part : MergeTreeDataPartWide) (ext : String) :
    ∀ (ss : List String) (m : Option Nat),
    checkMarkSizes part ext m ss = .ok () ∨
      ∃ e, checkMarkSizes part ext m ss = .error e ∧
        e.code = .BAD_SIZE_OF_FILE_IN_DATA_PART := by
  intro ss
  induction ss with
  | nil =>
    intro m
    left
    cases m <;> rfl
  | cons s rest ih =>
    intro m
    rw [checkMarkSizes_cons]
    cases hex : part.storage.fileExists (resolvedMarkPath part ext s) with
    | false =>
      simpa [hex] using ih m
    | true =>
      cases hz : part.storage.getFileSize (resolvedMarkPath part ext s) with
      | zero =>
        right
        exact ⟨.emptyMarksFile part.storage.full_path
          (part.storage.full_path ++ "/" ++ resolvedMarkPath part ext s),
          by simp [hex, hz], rfl⟩
      | succ k =>
        cases m with
        | none =>
          simpa [hex, hz] using ih (some (k + 1))
        | some x =>
          by_cases hxy : k + 1 = x
          · subst hxy
            simpa [hex, hz] using ih (some (k + 1))
          · right
            exact ⟨.marksDifferentSizes part.storage.full_path,
              by simp [hex, hz, hxy], rfl⟩

/-- `checkMarkSizes` succeeds exactly when the sizes of the existing mark
files are non-zero and all equal (to the accumulator value when one is set,
to the first existing size otherwise). -/
theorem checkMarkSizes_ok_iff (part : MergeTreeDataPartWide) (ext : String) :
    ∀ (ss : List String) (m : Option Nat),
    checkMarkSizes part ext m ss = .ok () ↔
      (match m with
       | none => allEqualNonzero (existingMarkSizes part ext ss)
       | some x => (existingMarkSizes part ext ss).all
           fun y => (y != 0) && (y == x)) = true := by
  intro ss
  induction ss with
  | nil =>
    intro m
    cases m <;> simp [checkMarkSizes, existingMarkSizes, allEqualNonzero]
  | cons s rest ih =>
    intro m
    rw [checkMarkSizes_cons, existingMarkSizes_cons]
    cases hex : part.storage.fileExists (resolvedMarkPath part ext s) with
    | false =>
      simpa [hex] using ih m
    | true =>
      cases hz : part.storage.getFileSize (resolvedMarkPath part ext s) with
      | zero =>
        cases m <;> simp [hex, hz, allEqualNonzero]
      | succ k =>
        cases m with
        | none =>
          have hih := ih (some (k + 1))
          simp only [hex, hz, if_true, if_pos rfl] at *
          simp [allEqualNonzero, hih]
        | some x =>
          by_cases hxy : k + 1 = x
          · subst hxy
            have hih := ih (some (k + 1))
            simp only [if_pos rfl] at *
            simp [hex, hz, hih]
          · simp [hex, hz, hxy]

/-- Claim C5: when the checksum index is empty, the consistency check
tolerates absent mark files; it passes exactly when every existing mark file
has a non-zero size equal to the first existing mark-file size, and any
zero-sized or size-mismatched existing mark file makes it fail with a
`BAD_SIZE_OF_FILE_IN_DATA_PART` error. -/
theorem claim_c5_no_metadata_check (part : MergeTreeDataPartWide) (rpm : Bool)
    (hempty : part.checksums.files = []) :
    (checkConsistency part rpm = .ok () ↔
      allEqualNonzero (existingMarkSizes part part.getMarksFileExtension
        (streamsOfColumns part.columns)) = true) ∧
    (allEqualNonzero (existingMarkSizes part part.getMarksFileExtension
        (streamsOfColumns part.columns)) = false →
      ∃ e, checkConsistency part rpm = .error e ∧
        e.code = .BAD_SIZE_OF_FILE_IN_DATA_PART) := by
  have hred : checkConsistency part rpm
      = checkMarkSizes part part.getMarksFileExtension none
          (streamsOfColumns part.columns) := by
    rw [checkConsistency, hempty]
    rfl
  constructor
  · rw [hred]
    simpa using checkMarkSizes_ok_iff part part.getMarksFileExtension
      (streamsOfColumns part.columns) none
  · intro hne
    rcases checkMarkSizes_err part part.getMarksFileExtension
        (streamsOfColumns part.columns) none with hok | ⟨e, he, hc⟩
    · exfalso
      have ht := (checkMarkSizes_ok_iff part part.getMarksFileExtension
        (streamsOfColumns part.columns) none).mp hok
      simp only at ht
      rw [hne] at ht
      cases ht
    · exact ⟨e, by rw [hred]; exact he, hc⟩

/-- Witness for claim C5 at a concrete part: the checksum index is empty and
the two existing mark files have sizes 48 and 32, so the no-metadata check
raises the size-mismatch error. -/
theorem claim_c5_no_metadata_check_witness :
    c5WitPart.checksums.files = [] ∧
    existingMarkSizes c5WitPart c5WitPart.getMarksFileExtension
      (streamsOfColumns c5WitPart.columns) = [48, 32] ∧
    checkConsistency c5WitPart false = .error (.marksDifferentSizes "p") ∧
    ((checkConsistency c5WitPart false = .ok () ↔
      allEqualNonzero (existingMarkSizes c5WitPart c5WitPart.getMarksFileExtension
        (streamsOfColumns c5WitPart.columns)) = true) ∧
    (allEqualNonzero (existingMarkSizes c5WitPart c5WitPart.getMarksFileExtension
        (streamsOfColumns c5WitPart.columns)) = false →
      ∃ e, checkConsistency c5WitPart false = .error e ∧
        e.code = .BAD_SIZE_OF_FILE_IN_DATA_PART)) :=
  ⟨rfl, by decide, by rfl, claim_c5_no_metadata_check c5WitPart false rfl⟩

/-- The empty size is a left identity of `ColumnSize.add`. -/
theorem ColumnSize.empty_add (a : ColumnSize) : ColumnSize.add {} a = a := by
  cases a
  simp [ColumnSize.add]

/-- The empty size is a right identity of `ColumnSize.add`. -/
theorem ColumnSize.add_empty (a : ColumnSize) : a.add {} = a := by
  cases a
  simp [ColumnSize.add]

/-- `ColumnSize.add` is associative. -/
theorem ColumnSize.add_assoc (a b c : ColumnSize) :
    (a.add b).add c = a.add (b.add c) := by
  cases a; cases b; cases c
  simp [ColumnSize.add, Nat.add_assoc]

/-- Folding `ColumnSize.add` from an arbitrary seed. -/
theorem foldr_add_eq (l : List ColumnSize) (x : ColumnSize) :
    l.foldr ColumnSize.add x = (sumSizes l).add x := by
  induction l with
  | nil => simp [sumSizes, ColumnSize.empty_add]
  | cons a l ih =>
    rw [List.foldr_cons, ih]
    rw [show sumSizes (a :: l) = a.add (sumSizes l) from rfl, ColumnSize.add_assoc]

/-- `sumSizes` distributes over append. -/
theorem sumSizes_append (a b : List ColumnSize) :
    sumSizes (a ++ b) = (sumSizes a).add (sumSizes b) := by
  rw [sumSizes, List.foldr_append, ← sumSizes, foldr_add_eq]

/-- Every member is componentwise below the sum of its list. -/
theorem le_sumSizes_of_mem (l : List ColumnSize) (x : ColumnSize) (hx : x ∈ l) :
    ColumnSize.le x (sumSizes l) := by
  induction l with
  | nil => cases hx
  | cons a l ih =>
    rw [show sumSizes (a :: l) = a.add (sumSizes l) from rfl]
    rcases List.mem_cons.mp hx with rfl | hmem
    · exact ⟨Nat.le_add_right _ _, Nat.le_add_right _ _, Nat.le_add_right _ _⟩
    · obtain ⟨h1, h2, h3⟩ := ih hmem
      exact ⟨Nat.le_trans h1 (Nat.le_add_left _ _),
        Nat.le_trans h2 (Nat.le_add_left _ _),
        Nat.le_trans h3 (Nat.le_add_left _ _)⟩

/-- A deduplicating stream pass accumulates exactly the sizes of the resolved
names not yet seen, each counted once, and extends the seen set with them. -/
theorem foldl_streamSizeStep_some (part : MergeTreeDataPartWide) :
    ∀ (ss : List String) (acc : ColumnSize) (seen : List String),
    ss.foldl (streamSizeStep part) (acc, some seen)
      = (acc.add (sumSizes
          ((dedupNew seen (ss.map (part.checksums.getFileNameOrHash))).map
            (streamSize part))),
         some (seenAfter seen (ss.map (part.checksums.getFileNameOrHash)))) := by
  intro ss
  induction ss with
  | nil =>
    intro acc seen
    simp [dedupNew, seenAfter, sumSizes, ColumnSize.add_empty]
  | cons s rest ih =>
    intro acc seen
    rw [List.foldl_cons]
    by_cases hmem : part.checksums.getFileNameOrHash s ∈ seen
    · have hstep : streamSizeStep part (acc, some seen) s = (acc, some seen) := by
        simp [streamSizeStep, hmem]
      rw [hstep, ih]
      rw [List.map_cons]
      rw [show dedupNew seen (part.checksums.getFileNameOrHash s
          :: rest.map (part.checksums.getFileNameOrHash))
        = dedupNew seen (rest.map (part.checksums.getFileNameOrHash)) by
          simp [dedupNew, hmem]]
      rw [show seenAfter seen (part.checksums.getFileNameOrHash s
          :: rest.map (part.checksums.getFileNameOrHash))
        = seenAfter seen (rest.map (part.checksums.getFileNameOrHash)) by
          simp [seenAfter, hmem]]
    · have hstep : streamSizeStep part (acc, some seen) s
          = (acc.add (streamSize part (part.checksums.getFileNameOrHash s)),
             some (part.checksums.getFileNameOrHash s :: seen)) := by
        simp [streamSizeStep, hmem]
      rw [hstep, ih]
      rw [List.map_cons]
      rw [show dedupNew seen (part.checksums.getFileNameOrHash s
          :: rest.map (part.checksums.getFileNameOrHash))
        = part.checksums.getFileNameOrHash s
            :: dedupNew (part.checksums.getFileNameOrHash s :: seen)
                (rest.map (part.checksums.getFileNameOrHash)) by
          simp [dedupNew, hmem]]
      rw [show seenAfter seen (part.checksums.getFileNameOrHash s
          :: rest.map (part.checksums.getFileNameOrHash))
        = seenAfter (part.checksums.getFileNameOrHash s :: seen)
            (rest.map (part.checksums.getFileNameOrHash)) by
          simp [seenAfter, hmem]]
      rw [List.map_cons]
      rw [show sumSizes (streamSize part (part.checksums.getFileNameOrHash s)
          :: (dedupNew (part.checksums.getFileNameOrHash s :: seen)
              (rest.map (part.checksums.getFileNameOrHash))).map (streamSize part))
        = (streamSize part (part.checksums.getFileNameOrHash s)).add
            (sumSizes ((dedupNew (part.checksums.getFileNameOrHash s :: seen)
              (rest.map (part.checksums.getFileNameOrHash))).map (streamSize part)))
        from rfl]
      rw [ColumnSize.add_assoc]

/-- A stream pass without a deduplication set accumulates the sizes of all
resolved names, shared ones included. -/
theorem foldl_streamSizeStep_none (part : MergeTreeDataPartWide) :
    ∀ (ss : List String) (acc : ColumnSize),
    ss.foldl (streamSizeStep part) (acc, none)
      = (acc.add (sumSizes
          ((ss.map (part.checksums.getFileNameOrHash)).map (streamSize part))),
         none) := by
  intro ss
  induction ss with
  | nil =>
    intro acc
    simp [sumSizes, ColumnSize.add_empty]
  | cons s rest ih =>
    intro acc
    rw [List.foldl_cons]
    have hstep : streamSizeStep part (acc, none) s
        = (acc.add (streamSize part (part.checksums.getFileNameOrHash s)), none) := rfl
    rw [hstep, ih, List.map_cons, List.map_cons]
    rw [show sumSizes (streamSize part (part.checksums.getFileNameOrHash s)
        :: (rest.map (part.checksums.getFileNameOrHash)).map (streamSize part))
      = (streamSize part (part.checksums.getFileNameOrHash s)).add
          (sumSizes ((rest.map (part.checksums.getFileNameOrHash)).map
            (streamSize part))) from rfl]
    rw [ColumnSize.add_assoc]

/-- With a non-empty checksum index, the deduplicating per-column size is the
sum of the sizes of the not-yet-seen resolved stream names of the column. -/
theorem getColumnSizeImpl_some (part : MergeTreeDataPartWide)
    (column : NameAndTypePair) (seen : List String)
    (hne : part.checksums.files.isEmpty = false) :
    getColumnSizeImpl part column (some seen)
      = (sumSizes ((dedupNew seen
            (column.streams.map (part.checksums.getFileNameOrHash))).map
              (streamSize part)),
         some (seenAfter seen
            (column.streams.map (part.checksums.getFileNameOrHash)))) := by
  rw [getColumnSizeImpl, hne]
  rw [show (if (false : Bool) = true then (({} : ColumnSize), some seen)
      else column.streams.foldl (streamSizeStep part) ({}, some seen))
    = column.streams.foldl (streamSizeStep part) ({}, some seen) from rfl]
  rw [foldl_streamSizeStep_some, ColumnSize.empty_add]

/-- Every stream lookup against an empty checksum index contributes nothing. -/
theorem streamSize_of_empty (part : MergeTreeDataPartWide) (x : String)
    (hfe : part.checksums.files = []) : streamSize part x = {} := by
  simp [streamSize, hfe]

/-- The sum of sizes over names is empty when the checksum index is empty. -/
theorem sumSizes_streamSize_empty (part : MergeTreeDataPartWide)
    (hfe : part.checksums.files = []) :
    ∀ ns : List String, sumSizes (ns.map (streamSize part)) = {} := by
  intro ns
  induction ns with
  | nil => rfl
  | cons n rest ih =>
    rw [List.map_cons]
    rw [show sumSizes (streamSize part n :: rest.map (streamSize part))
      = (streamSize part n).add (sumSizes (rest.map (streamSize part))) from rfl]
    rw [streamSize_of_empty part n hfe, ih, ColumnSize.empty_add]

/-- The standalone (no deduplication set) per-column size is the sum of the
sizes of all resolved stream names of the column, shared ones included. -/
theorem getColumnSizeImpl_none_eq (part : MergeTreeDataPartWide)
    (column : NameAndTypePair) :
    getColumnSizeImpl part column none
      = (sumSizes ((column.streams.map (part.checksums.getFileNameOrHash)).map
          (streamSize part)), none) := by
  cases he : part.checksums.files.isEmpty with
  | true =>
    have hfe : part.checksums.files = [] := by
      cases hv : part.checksums.files with
      | nil => rfl
      | cons a l => rw [hv] at he; cases he
    rw [getColumnSizeImpl, he]
    rw [sumSizes_streamSize_empty part hfe]
    rfl
  | false =>
    rw [getColumnSizeImpl, he]
    rw [show (if (false : Bool) = true then (({} : ColumnSize), (none : Option (List String)))
        else column.streams.foldl (streamSizeStep part) ({}, none))
      = column.streams.foldl (streamSizeStep part) ({}, none) from rfl]
    rw [foldl_streamSizeStep_none, ColumnSize.empty_add]

/-- Unfolding one step of the per-column loop. -/
theorem calcGo_cons (part : MergeTreeDataPartWide) (c : NameAndTypePair)
    (rest : List NameAndTypePair) (each : List (String × ColumnSize))
    (total : ColumnSize) (seen : List String) :
    calculateEachColumnSizesGo part (c :: rest) each total seen =
      (if part.rows_count != 0 && c.isValueRepresentedByNumber
          && !c.haveSubtypes && c.serializationIsDefaultKind then
        if (getColumnSizeImpl part c (some seen)).1.data_uncompressed
            / c.sizeOfValueInMemory != part.rows_count then
          .error (.rowsCountMismatch c.name
            ((getColumnSizeImpl part c (some seen)).1.data_uncompressed
              / c.sizeOfValueInMemory) part.name part.rows_count)
        else
          calculateEachColumnSizesGo part rest
            (assocSet each c.name (getColumnSizeImpl part c (some seen)).1)
            (total.add (getColumnSizeImpl part c (some seen)).1)
            (((getColumnSizeImpl part c (some seen)).2).getD seen)
      else
        calculateEachColumnSizesGo part rest
          (assocSet each c.name (getColumnSizeImpl part c (some seen)).1)
          (total.add (getColumnSizeImpl part c (some seen)).1)
          (((getColumnSizeImpl part c (some seen)).2).getD seen)) := rfl

/-- Assigning a fresh key into the name-keyed map appends the entry. -/
theorem assocSet_append (m : List (String × ColumnSize)) (k : String)
    (v : ColumnSize) (hfresh : ∀ kv ∈ m, k ≠ kv.1) :
    assocSet m k v = m ++ [(k, v)] := by
  rw [assocSet]
  rw [show m.any (fun kv => kv.1 == k) = false by
    rw [List.any_eq_false]
    intro kv hkv
    simp only [beq_iff_eq]
    exact fun h => hfresh kv hkv h.symm]
  rfl

/-- Structure of a successful per-column pass: the per-column map grows by one
entry per column in order, the total is the sum of the appended per-column
sizes, and every fixed-width, subtype-free, default-serialized column passed
the debug row-count cross-check on its recorded size. -/
theorem calcGo_delta (part : MergeTreeDataPartWide) :
    ∀ (cols : List NameAndTypePair) (each : List (String × ColumnSize))
      (total : ColumnSize) (seen : List String)
      (each' : List (String × ColumnSize)) (total' : ColumnSize),
    (∀ kv ∈ each, ∀ c ∈ cols, c.name ≠ kv.1) →
    (cols.map (fun c => c.name)).Nodup →
    calculateEachColumnSizesGo part cols each total seen = .ok (each', total') →
    ∃ δ : List (String × ColumnSize),
      each' = each ++ δ ∧
      δ.map (fun kv => kv.1) = cols.map (fun c => c.name) ∧
      total' = total.add (sumSizes (δ.map (fun kv => kv.2))) ∧
      (part.rows_count ≠ 0 →
        ∀ c ∈ cols, c.isValueRepresentedByNumber = true →
          c.haveSubtypes = false → c.serializationIsDefaultKind = true →
          ∀ sz, (c.name, sz) ∈ δ →
            sz.data_uncompressed / c.sizeOfValueInMemory = part.rows_count) := by
  intro cols
  induction cols with
  | nil =>
    intro each total seen each' total' _ _ hok
    have hpair : each = each' ∧ total = total' := by
      rw [show calculateEachColumnSizesGo part [] each total seen
        = .ok (each, total) from rfl] at hok
      have h1 := congrArg (fun r => match r with
        | .ok (p : List (String × ColumnSize) × ColumnSize) => p
        | .error _ => (each, total)) hok
      simp only at h1
      exact ⟨congrArg Prod.fst h1, congrArg Prod.snd h1⟩
    obtain ⟨he, ht⟩ := hpair
    refine ⟨[], by simp [he], rfl, ?_, by simp⟩
    rw [← ht]
    rw [show sumSizes ([].map fun kv : String × ColumnSize => kv.2) = {} from rfl]
    rw [ColumnSize.add_empty]
  | cons c rest ih =>
    intro each total seen each' total' hdisj hnd hok
    have hndc : (∀ x ∈ rest, ¬x.name = c.name) ∧
        (rest.map (fun c => c.name)).Nodup := by simpa using hnd
    have hcnotin : c.name ∉ rest.map (fun c => c.name) := by
      intro hmem
      obtain ⟨x, hx, hxeq⟩ := List.mem_map.mp hmem
      exact hndc.1 x hx hxeq
    have hndrest : (rest.map (fun c => c.name)).Nodup := hndc.2
    have hfresh : ∀ kv ∈ each, c.name ≠ kv.1 := fun kv hkv =>
      hdisj kv hkv c (by simp)
    rw [calcGo_cons, assocSet_append each c.name _ hfresh] at hok
    have hmain : calculateEachColumnSizesGo part rest
          (each ++ [(c.name, (getColumnSizeImpl part c (some seen)).1)])
          (total.add (getColumnSizeImpl part c (some seen)).1)
          (((getColumnSizeImpl part c (some seen)).2).getD seen) = .ok (each', total') ∧
        ((part.rows_count != 0 && c.isValueRepresentedByNumber
            && !c.haveSubtypes && c.serializationIsDefaultKind) = true →
          (getColumnSizeImpl part c (some seen)).1.data_uncompressed
            / c.sizeOfValueInMemory = part.rows_count) := by
      cases hcond : (part.rows_count != 0 && c.isValueRepresentedByNumber
          && !c.haveSubtypes && c.serializationIsDefaultKind) with
      | false =>
        rw [hcond] at hok
        simp only [Bool.false_eq_true, if_false] at hok
        exact ⟨hok, fun h => by cases h⟩
      | true =>
        rw [hcond] at hok
        simp only [if_true] at hok
        cases hguard : ((getColumnSizeImpl part c (some seen)).1.data_uncompressed
            / c.sizeOfValueInMemory != part.rows_count) with
        | true =>
          rw [hguard] at hok
          simp only [if_true] at hok
          cases hok
        | false =>
          rw [hguard] at hok
          simp only [Bool.false_eq_true, if_false] at hok
          exact ⟨hok, fun _ => bne_eq_false_iff_eq.mp hguard⟩
    have hdisj' : ∀ kv ∈ each ++ [(c.name, (getColumnSizeImpl part c (some seen)).1)],
        ∀ c' ∈ rest, c'.name ≠ kv.1 := by
      intro kv hkv c' hc'
      rcases List.mem_append.mp hkv with hin | hin
      · exact hdisj kv hin c' (by simp [hc'])
      · rcases List.mem_singleton.mp hin with rfl
        intro heq
        have heq' : c'.name = c.name := heq
        exact hcnotin (by rw [← heq']; exact List.mem_map_of_mem (fun c => c.name) hc')
    obtain ⟨δ', heach, hkeys, htot, hcheck⟩ :=
      ih _ _ _ each' total' hdisj' hndrest hmain.1
    refine ⟨(c.name, (getColumnSizeImpl part c (some seen)).1) :: δ', ?_, ?_, ?_, ?_⟩
    · rw [heach, List.append_assoc]
      rfl
    · simp [hkeys]
    · rw [htot]
      rw [show sumSizes (((c.name, (getColumnSizeImpl part c (some seen)).1) :: δ').map
          fun kv => kv.2)
        = ((getColumnSizeImpl part c (some seen)).1).add
            (sumSizes (δ'.map fun kv => kv.2)) from rfl]
      rw [ColumnSize.add_assoc]
    · intro hr c0 hc0 hnum hsub hkind sz hsz
      rcases List.mem_cons.mp hc0 with rfl | hc0rest
      · rcases List.mem_cons.mp hsz with hhead | htail
        · have hszeq : sz = (getColumnSizeImpl part c0 (some seen)).1 := by
            have := congrArg Prod.snd hhead
            simpa using this
          have hcond : (part.rows_count != 0 && c0.isValueRepresentedByNumber
              && !c0.haveSubtypes && c0.serializationIsDefaultKind) = true := by
            simp [hnum, hsub, hkind, bne_iff_ne, hr]
          rw [hszeq]
          exact hmain.2 hcond
        · exfalso
          have : c0.name ∈ δ'.map (fun kv => kv.1) :=
            List.mem_map_of_mem (fun kv => kv.1) htail
          rw [hkeys] at this
          exact hcnotin this
      · rcases List.mem_cons.mp hsz with hhead | htail
        · exfalso
          have hnameeq : c0.name = c.name := congrArg Prod.fst hhead
          exact hcnotin (hnameeq ▸ List.mem_map_of_mem (fun c => c.name) hc0rest)
        · exact hcheck hr c0 hc0rest hnum hsub hkind sz htail

/-- Claim C9: on a part with distinct column names, the part-level total size
produced by the all-columns size calculation equals the componentwise sum of
the per-column sizes it reports. -/
theorem claim_c9_total_eq_sum (part : MergeTreeDataPartWide)
    (each : List (String × ColumnSize)) (total : ColumnSize)
    (hnd : (part.columns.map (fun c => c.name)).Nodup)
    (hok : calculateEachColumnSizes part = .ok (each, total)) :
    total = sumSizes (each.map (fun kv => kv.2)) := by
  obtain ⟨δ, heach, hkeys, htot, hcheck⟩ :=
    calcGo_delta part part.columns [] {} [] each total (by simp) hnd hok
  rw [htot, ColumnSize.empty_add]
  rw [show each = δ by simpa using heach]

/-- Witness for claim C9 at a concrete part with two columns. -/
theorem claim_c9_total_eq_sum_witness :
    (c9WitPart.columns.map (fun c => c.name)).Nodup ∧
    calculateEachColumnSizes c9WitPart
      = .ok ([("A", ⟨3, 5, 6⟩), ("B", ⟨0, 7, 8⟩)], ⟨3, 12, 14⟩) ∧
    (⟨3, 12, 14⟩ : ColumnSize)
      = sumSizes ([("A", (⟨3, 5, 6⟩ : ColumnSize)), ("B", ⟨0, 7, 8⟩)].map
          (fun kv => kv.2)) :=
  ⟨by decide, by rfl,
    claim_c9_total_eq_sum c9WitPart [("A", ⟨3, 5, 6⟩), ("B", ⟨0, 7, 8⟩)] ⟨3, 12, 14⟩
      (by decide) (by rfl)⟩

/-- The per-column loop cannot fail when the part row count is zero: the
debug cross-check is guarded by a non-zero row count. -/
theorem calcGo_ok_of_rows_zero (part : MergeTreeDataPartWide)
    (hz : part.rows_count = 0) :
    ∀ (cols : List NameAndTypePair) (each : List (String × ColumnSize))
      (total : ColumnSize) (seen : List String),
    ∃ r, calculateEachColumnSizesGo part cols each total seen = .ok r := by
  intro cols
  induction cols with
  | nil =>
    intro each total seen
    exact ⟨(each, total), rfl⟩
  | cons c rest ih =>
    intro each total seen
    rw [calcGo_cons]
    have hcond : (part.rows_count != 0 && c.isValueRepresentedByNumber
        && !c.haveSubtypes && c.serializationIsDefaultKind) = false := by
      simp [hz]
    rw [hcond]
    simp only [Bool.false_eq_true, if_false]
    exact ih _ _ _

/-- Claim C10: for every part whose total row count is zero, the all-columns
size calculation succeeds and never raises any error, regardless of the
checksum entries of its columns. -/
theorem claim_c10_zero_rows_no_error (part : MergeTreeDataPartWide)
    (hz : part.rows_count = 0) :
    (∃ r, calculateEachColumnSizes part = .ok r) ∧
    ∀ e, calculateEachColumnSizes part ≠ .error e := by
  obtain ⟨r, hr⟩ := calcGo_ok_of_rows_zero part hz part.columns [] {} []
  refine ⟨⟨r, hr⟩, fun e he => ?_⟩
  rw [show calculateEachColumnSizes part
    = calculateEachColumnSizesGo part part.columns [] {} [] from rfl, hr] at he
  exact Except.noConfusion he

/-- Witness for claim C10 at a concrete part: zero rows, and a checksum entry
whose derived row count (2) differs from the row count, yet no error. -/
theorem claim_c10_zero_rows_no_error_witness :
    c10WitPart.rows_count = 0 ∧
    (16 : Nat) / 8 ≠ c10WitPart.rows_count ∧
    ((∃ r, calculateEachColumnSizes c10WitPart = .ok r) ∧
      ∀ e, calculateEachColumnSizes c10WitPart ≠ .error e) :=
  ⟨rfl, by decide, claim_c10_zero_rows_no_error c10WitPart rfl⟩

/-- The only error the all-columns size calculation can raise is the
`LOGICAL_ERROR` row-count mismatch, carrying the part name, the part row
count and a mismatching derived row count. -/
theorem calcGo_error_shape (part : MergeTreeDataPartWide) :
    ∀ (cols : List NameAndTypePair) (each : List (String × ColumnSize))
      (total : ColumnSize) (seen : List String) (e : PartError),
    calculateEachColumnSizesGo part cols each total seen = .error e →
    ∃ cname rc, e = .rowsCountMismatch cname rc part.name part.rows_count ∧
      rc ≠ part.rows_count := by
  intro cols
  induction cols with
  | nil =>
    intro each total seen e h
    rw [show calculateEachColumnSizesGo part [] each total seen
      = .ok (each, total) from rfl] at h
    exact Except.noConfusion h
  | cons c rest ih =>
    intro each total seen e h
    rw [calcGo_cons] at h
    cases hcond : (part.rows_count != 0 && c.isValueRepresentedByNumber
        && !c.haveSubtypes && c.serializationIsDefaultKind) with
    | false =>
      rw [hcond] at h
      simp only [Bool.false_eq_true, if_false] at h
      exact ih _ _ _ _ h
    | true =>
      rw [hcond] at h
      simp only [if_true] at h
      cases hguard : ((getColumnSizeImpl part c (some seen)).1.data_uncompressed
          / c.sizeOfValueInMemory != part.rows_count) with
      | false =>
        rw [hguard] at h
        simp only [Bool.false_eq_true, if_false] at h
        exact ih _ _ _ _ h
      | true =>
        rw [hguard] at h
        simp only [if_true] at h
        have he : PartError.rowsCountMismatch c.name
            ((getColumnSizeImpl part c (some seen)).1.data_uncompressed
              / c.sizeOfValueInMemory) part.name part.rows_count = e :=
          Except.error.inj h
        exact ⟨c.name, _, he.symm, bne_iff_ne.mp hguard⟩

/-- Claim C7 (amended): when the part row count is non-zero, the size
calculation of a part with distinct column names raises the `LOGICAL_ERROR`
row-count mismatch naming the column and the part whenever a fixed-width,
subtype-free, default-serialized column records an uncompressed byte total
whose quotient by the value width differs from the row count: a successful
pass certifies the quotient of every such column, and any failure is exactly
that error. -/
theorem claim_c7_rows_cross_check (part : MergeTreeDataPartWide)
    (hnd : (part.columns.map (fun c => c.name)).Nodup)
    (hr : part.rows_count ≠ 0) :
    (∀ each total, calculateEachColumnSizes part = .ok (each, total) →
      ∀ column ∈ part.columns, column.isValueRepresentedByNumber = true →
        column.haveSubtypes = false → column.serializationIsDefaultKind = true →
        ∀ sz, (column.name, sz) ∈ each →
          sz.data_uncompressed / column.sizeOfValueInMemory = part.rows_count) ∧
    (∀ e, calculateEachColumnSizes part = .error e →
      ∃ cname rc, e = .rowsCountMismatch cname rc part.name part.rows_count ∧
        rc ≠ part.rows_count ∧ e.code = .LOGICAL_ERROR) := by
  constructor
  · intro each total hok column hcol hnum hsub hkind sz hsz
    obtain ⟨δ, heach, hkeys, htot, hcheck⟩ :=
      calcGo_delta part part.columns [] {} [] each total (by simp) hnd hok
    have hδ : each = δ := by simpa using heach
    exact hcheck hr column hcol hnum hsub hkind sz (hδ ▸ hsz)
  · intro e he
    obtain ⟨cname, rc, hshape, hne⟩ :=
      calcGo_error_shape part part.columns [] {} [] e he
    exact ⟨cname, rc, hshape, hne, by rw [hshape]; rfl⟩

/-- Witness for claim C7 at a concrete part: 1000 rows, an 8-byte column with
7992 uncompressed bytes, so the pass fails with the row-count mismatch naming
the column and the part. -/
theorem claim_c7_rows_cross_check_witness :
    ((c7WitPart.columns.map (fun c => c.name)).Nodup ∧ c7WitPart.rows_count ≠ 0) ∧
    calculateEachColumnSizes c7WitPart
      = .error (.rowsCountMismatch "A" 999 "p0" 1000) ∧
    ∃ cname rc, (PartError.rowsCountMismatch "A" 999 "p0" 1000)
        = .rowsCountMismatch cname rc c7WitPart.name c7WitPart.rows_count ∧
      rc ≠ c7WitPart.rows_count ∧
      (PartError.rowsCountMismatch "A" 999 "p0" 1000).code = .LOGICAL_ERROR :=
  ⟨⟨by decide, by decide⟩, by rfl,
    (claim_c7_rows_cross_check c7WitPart (by decide) (by decide)).2 _ (by rfl)⟩

/-- Counterexample to claim C7 as stated: a part with zero rows and a
fixed-width, subtype-free, default-serialized column whose derived row count
(8 / 8 = 1) differs from the part row count, yet the size calculation
succeeds and raises nothing. -/
theorem claim_c7_rows_cross_check_counterexample :
    (∃ column, c7CexPart.columns = [column] ∧
      column.isValueRepresentedByNumber = true ∧ column.haveSubtypes = false ∧
      column.serializationIsDefaultKind = true ∧ column.sizeOfValueInMemory = 8) ∧
    calculateEachColumnSizes c7CexPart
      = .ok ([("A", ⟨0, 8, 8⟩)], ⟨0, 8, 8⟩) ∧
    (⟨0, 8, 8⟩ : ColumnSize).data_uncompressed / 8 ≠ c7CexPart.rows_count ∧
    ∀ e, calculateEachColumnSizes c7CexPart ≠ .error e :=
  ⟨⟨⟨"A", ["A"], true, false, true, 8⟩, rfl, rfl, rfl, rfl, rfl⟩, by rfl, by decide,
    fun e he => by
      rw [show calculateEachColumnSizes c7CexPart
        = .ok ([("A", ⟨0, 8, 8⟩)], ⟨0, 8, 8⟩) from rfl] at he
      exact Except.noConfusion he⟩

/-- The seen set after a concatenated pass composes. -/
theorem seenAfter_append (l1 : List String) :
    ∀ (seen : List String) (l2 : List String),
    seenAfter seen (l1 ++ l2) = seenAfter (seenAfter seen l1) l2 := by
  induction l1 with
  | nil => intro seen l2; rfl
  | cons x xs ih =>
    intro seen l2
    by_cases hx : x ∈ seen
    · rw [List.cons_append]
      rw [show seenAfter seen (x :: (xs ++ l2)) = seenAfter seen (xs ++ l2) by
        simp [seenAfter, hx]]
      rw [show seenAfter seen (x :: xs) = seenAfter seen xs by simp [seenAfter, hx]]
      exact ih seen l2
    · rw [List.cons_append]
      rw [show seenAfter seen (x :: (xs ++ l2)) = seenAfter (x :: seen) (xs ++ l2) by
        simp [seenAfter, hx]]
      rw [show seenAfter seen (x :: xs) = seenAfter (x :: seen) xs by
        simp [seenAfter, hx]]
      exact ih (x :: seen) l2

/-- First occurrences in a concatenated pass split at the seen set reached
after the first half. -/
theorem dedupNew_append (l1 : List String) :
    ∀ (seen : List String) (l2 : List String),
    dedupNew seen (l1 ++ l2) = dedupNew seen l1 ++ dedupNew (seenAfter seen l1) l2 := by
  induction l1 with
  | nil => intro seen l2; rfl
  | cons x xs ih =>
    intro seen l2
    by_cases hx : x ∈ seen
    · rw [List.cons_append]
      rw [show dedupNew seen (x :: (xs ++ l2)) = dedupNew seen (xs ++ l2) by
        simp [dedupNew, hx]]
      rw [show dedupNew seen (x :: xs) = dedupNew seen xs by simp [dedupNew, hx]]
      rw [show seenAfter seen (x :: xs) = seenAfter seen xs by simp [seenAfter, hx]]
      exact ih seen l2
    · rw [List.cons_append]
      rw [show dedupNew seen (x :: (xs ++ l2))
        = x :: dedupNew (x :: seen) (xs ++ l2) by simp [dedupNew, hx]]
      rw [show dedupNew seen (x :: xs) = x :: dedupNew (x :: seen) xs by
        simp [dedupNew, hx]]
      rw [show seenAfter seen (x :: xs) = seenAfter (x :: seen) xs by
        simp [seenAfter, hx]]
      rw [ih (x :: seen) l2]
      rfl

/-- With an empty checksum index, a successful pass leaves the total
unchanged: every per-column size is zero. -/
theorem calcGo_total_empty (part : MergeTreeDataPartWide)
    (hfe : part.checksums.files = []) :
    ∀ (cols : List NameAndTypePair) (each : List (String × ColumnSize))
      (total : ColumnSize) (seen : List String)
      (each' : List (String × ColumnSize)) (total' : ColumnSize),
    calculateEachColumnSizesGo part cols each total seen = .ok (each', total') →
    total' = total := by
  intro cols
  induction cols with
  | nil =>
    intro each total seen each' total' hok
    have h1 := congrArg (fun r => match r with
      | Except.ok (p : List (String × ColumnSize) × ColumnSize) => p.2
      | Except.error _ => total) hok
    simpa using h1.symm
  | cons c rest ih =>
    intro each total seen each' total' hok
    rw [calcGo_cons] at hok
    have hcs : getColumnSizeImpl part c (some seen) = ({}, some seen) := by
      rw [getColumnSizeImpl, show part.checksums.files.isEmpty = true by
        rw [hfe]; rfl]
      rfl
    rw [hcs] at hok
    simp only [Option.getD_some] at hok
    cases hcond : (part.rows_count != 0 && c.isValueRepresentedByNumber
        && !c.haveSubtypes && c.serializationIsDefaultKind) with
    | false =>
      rw [hcond] at hok
      simp only [Bool.false_eq_true, if_false] at hok
      have := ih _ _ _ _ _ hok
      rw [this, ColumnSize.add_empty]
    | true =>
      rw [hcond] at hok
      simp only [if_true] at hok
      cases hguard : ((({} : ColumnSize), some seen).1.data_uncompressed
          / c.sizeOfValueInMemory != part.rows_count) with
      | true =>
        rw [hguard] at hok
        simp only [if_true] at hok
        exact Except.noConfusion hok
      | false =>
        rw [hguard] at hok
        simp only [Bool.false_eq_true, if_false] at hok
        have := ih _ _ _ _ _ hok
        rw [this, ColumnSize.add_empty]

/-- With a non-empty checksum index, a successful pass adds to the total
exactly the sizes of the first occurrences of resolved stream names that were
not yet in the deduplication set. -/
theorem calcGo_total_dedup (part : MergeTreeDataPartWide)
    (hne : part.checksums.files.isEmpty = false) :
    ∀ (cols : List NameAndTypePair) (each : List (String × ColumnSize))
      (total : ColumnSize) (seen : List String)
      (each' : List (String × ColumnSize)) (total' : ColumnSize),
    calculateEachColumnSizesGo part cols each total seen = .ok (each', total') →
    total' = total.add (sumSizes ((dedupNew seen
      ((streamsOfColumns cols).map (part.checksums.getFileNameOrHash))).map
        (streamSize part))) := by
  intro cols
  induction cols with
  | nil =>
    intro each total seen each' total' hok
    rw [show calculateEachColumnSizesGo part [] each total seen
      = .ok (each, total) from rfl] at hok
    have h1 : total = total' := congrArg Prod.snd (Except.ok.inj hok)
    rw [← h1]
    rw [show dedupNew seen ((streamsOfColumns []).map
      (part.checksums.getFileNameOrHash)) = [] from rfl]
    rw [show sumSizes (([] : List String).map (streamSize part)) = {} from rfl]
    rw [ColumnSize.add_empty]
  | cons c rest ih =>
    intro each total seen each' total' hok
    rw [calcGo_cons] at hok
    rw [getColumnSizeImpl_some part c seen hne] at hok
    simp only [Option.getD_some] at hok
    have hrec : calculateEachColumnSizesGo part rest
        (assocSet each c.name (sumSizes ((dedupNew seen
          (c.streams.map (part.checksums.getFileNameOrHash))).map (streamSize part))))
        (total.add (sumSizes ((dedupNew seen
          (c.streams.map (part.checksums.getFileNameOrHash))).map (streamSize part))))
        (seenAfter seen (c.streams.map (part.checksums.getFileNameOrHash)))
        = .ok (each', total') := by
      cases hcond : (part.rows_count != 0 && c.isValueRepresentedByNumber
          && !c.haveSubtypes && c.serializationIsDefaultKind) with
      | false =>
        rw [hcond] at hok
        simpa using hok
      | true =>
        rw [hcond] at hok
        simp only [if_true] at hok
        cases hguard : ((sumSizes ((dedupNew seen
            (c.streams.map (part.checksums.getFileNameOrHash))).map
              (streamSize part))).data_uncompressed
            / c.sizeOfValueInMemory != part.rows_count) with
        | true =>
          rw [hguard] at hok
          simp only [if_true] at hok
          exact Except.noConfusion hok
        | false =>
          rw [hguard] at hok
          simpa using hok
    have hrest := ih _ _ _ _ _ hrec
    rw [hrest]
    rw [show streamsOfColumns (c :: rest)
      = c.streams ++ streamsOfColumns rest from rfl]
    rw [List.map_append, dedupNew_append, List.map_append, sumSizes_append,
      ColumnSize.add_assoc]

/-- Claim C3 (amended): a successful all-columns pass produces a part-level
total that counts each resolved stream exactly once — it equals the sum of
the stream sizes over the first occurrences of resolved stream names across
the pass — while the standalone per-column size, computed without the
deduplication set, is the full sum over all the column streams and hence
still includes every shared stream contribution. -/
theorem claim_c3_dedup_total (part : MergeTreeDataPartWide)
    (each : List (String × ColumnSize)) (total : ColumnSize)
    (hok : calculateEachColumnSizes part = .ok (each, total)) :
    total = sumSizes ((dedupNew [] (allResolvedStreams part)).map (streamSize part)) ∧
    (∀ column, getColumnSizeImpl part column none
      = (sumSizes ((column.streams.map (part.checksums.getFileNameOrHash)).map
          (streamSize part)), none)) ∧
    (∀ column, ∀ s ∈ column.streams,
      ColumnSize.le (streamSize part (part.checksums.getFileNameOrHash s))
        ((getColumnSizeImpl part column none).1)) := by
  refine ⟨?_, fun column => getColumnSizeImpl_none_eq part column, ?_⟩
  · cases he : part.checksums.files.isEmpty with
    | true =>
      have hfe : part.checksums.files = [] := by
        cases hv : part.checksums.files with
        | nil => rfl
        | cons a l => rw [hv] at he; cases he
      have htot : total = {} := calcGo_total_empty part hfe part.columns [] {} []
        each total hok
      rw [htot, sumSizes_streamSize_empty part hfe]
    | false =>
      have htot := calcGo_total_dedup part he part.columns [] {} [] each total hok
      rw [htot, ColumnSize.empty_add]
      rfl
  · intro column s hs
    have heq := getColumnSizeImpl_none_eq part column
    have h1 : (getColumnSizeImpl part column none).1
        = sumSizes ((column.streams.map (part.checksums.getFileNameOrHash)).map
            (streamSize part)) := congrArg Prod.fst heq
    rw [h1]
    exact le_sumSizes_of_mem _ _
      (List.mem_map_of_mem (streamSize part)
        (List.mem_map_of_mem (part.checksums.getFileNameOrHash) hs))

/-- Witness for claim C3 at a concrete part: two columns share the stream
`s`; the pass total counts the 10 shared bytes once, and the standalone
per-column sizes of both columns include them. -/
theorem claim_c3_dedup_total_witness :
    calculateEachColumnSizes c3CexPart
      = .ok ([("A", ⟨0, 10, 10⟩), ("B", ⟨0, 0, 0⟩)], ⟨0, 10, 10⟩) ∧
    ((⟨0, 10, 10⟩ : ColumnSize)
        = sumSizes ((dedupNew [] (allResolvedStreams c3CexPart)).map
            (streamSize c3CexPart)) ∧
      (∀ column, getColumnSizeImpl c3CexPart column none
        = (sumSizes ((column.streams.map
            (c3CexPart.checksums.getFileNameOrHash)).map (streamSize c3CexPart)),
           none)) ∧
      (∀ column, ∀ s ∈ column.streams,
        ColumnSize.le (streamSize c3CexPart (c3CexPart.checksums.getFileNameOrHash s))
          ((getColumnSizeImpl c3CexPart column none).1))) :=
  ⟨by rfl,
    claim_c3_dedup_total c3CexPart [("A", ⟨0, 10, 10⟩), ("B", ⟨0, 0, 0⟩)]
      ⟨0, 10, 10⟩ (by rfl)⟩

/-- Counterexample to claim C3 as stated: in the same deduplicating pass, the
second column sharing stream `s` gets the per-column aggregate (0, 0, 0), which
does not include the 10 shared bytes of `s`. -/
theorem claim_c3_dedup_total_counterexample :
    (∃ colA colB, c3CexPart.columns = [colA, colB] ∧ colA.name = "A" ∧
      colB.name = "B" ∧ "s" ∈ colA.streams ∧ "s" ∈ colB.streams) ∧
    calculateEachColumnSizes c3CexPart
      = .ok ([("A", ⟨0, 10, 10⟩), ("B", ⟨0, 0, 0⟩)], ⟨0, 10, 10⟩) ∧
    streamSize c3CexPart (c3CexPart.checksums.getFileNameOrHash "s") = ⟨0, 10, 10⟩ ∧
    ¬ColumnSize.le (streamSize c3CexPart (c3CexPart.checksums.getFileNameOrHash "s"))
      ⟨0, 0, 0⟩ :=
  ⟨⟨⟨"A", ["s"], false, false, false, 0⟩, ⟨"B", ["s"], false, false, false, 0⟩,
    rfl, rfl, rfl, by decide, by decide⟩, by rfl, by decide,
    fun h => absurd h.2.1 (by decide)⟩
